import Mathlib

/-!
The qdmr call-sign database encoder and configuration tree.

A shallow embedding of

* `GD77CallsignDB::encode` and its helpers (`src/lib/gd77_callsigndb.cc`),
* `Config::populate`, `Config::parse` and `Config::link` (`src/lib/config.cc`),

* `Config::readYAML`, `Config::readCSV`, `Config::clear`, the signal
  connections of the constructor, `Config::requiresRoaming` and `Config::requiresGPS`,
* `D878UV::verifyConfig` and the band table of the `D878UV` constructor
  (`src/lib/d878uv.cc`),
* the bank constants and the flag coordinates of the channel element of
  `src/lib/opengd77base_codeplug.hh`,

followed by the properties proved about them.

Conventions.  `qint64` values are `Int`; conversions between machine integer
types are written out (`toQint64`, `toU64`, `toUint`).  Bytes are `Nat`
below 256.  A `QString` is a `String`.
-/

set_option autoImplicit false

/-! ## Part 1. `gd77_callsigndb.cc` -/

namespace GD77CallsignDB

/-- The `#define OFFSET_USERDB 0x00000`. -/
def OFFSET_USERDB : Nat := 0x00000

/-- The `#define USERDB_MAX_ENTRIES 10920`. -/
def USERDB_MAX_ENTRIES : Nat := 10920

/-- The `#define BLOCK_SIZE 32`. -/
def BLOCK_SIZE : Nat := 32

/-- A record `UserDatabase::User` as far as `fromEntry` and the sort comparator
read it: the numeric id, the call and the name. -/
structure User where
  id : Nat
  call : String
  name : String
  deriving DecidableEq, Repr

/-- Modelled from the spec: the `Selection` argument (declared in a header that
is not part of the sources) is the "caller-supplied selection limit": it
either carries a count limit or none.  `countLimit` is what
`selection.countLimit()` returns; it is read only when `hasCountLimit`. -/
structure Selection where
  hasCountLimit : Bool
  countLimit : Nat
  deriving DecidableEq, Repr

/-- The cast `(qint64)x` of an unsigned 64-bit value: the two's complement
reading of its low 64 bits. -/
def toQint64 (x : Nat) : Int :=
  if x % 2 ^ 64 < 2 ^ 63 then ((x % 2 ^ 64 : Nat) : Int)
  else ((x % 2 ^ 64 : Nat) : Int) - 2 ^ 64

/-- Conversion of a `qint64` to an unsigned 64-bit integer (the usual
arithmetic conversion in `n*sizeof(...)`). -/
def toU64 (x : Int) : Nat := (x % 2 ^ 64).toNat

/-- Conversion of a `qint64` to `uint` (32 bit), as in the call `setSize(n)`. -/
def toUint (x : Int) : Nat := (x % 2 ^ 32).toNat

/-- Lines 88-90 of `encode`: the number `n` of entries to encode, from
`calldb->count()` and the selection. -/
def entryCount (count : Int) (sel : Selection) : Int :=
  let n := min count (USERDB_MAX_ENTRIES : Int)
  if sel.hasCountLimit then min n (toQint64 sel.countLimit) else n

/-- One insertion step of the sort, with the comparator of line 100,
`a.id < b.id`. -/
def insertById (u : User) : List User → List User
  | [] => [u]
  | v :: vs => if u.id < v.id then u :: v :: vs else v :: insertById u vs

/-- The call `std::sort(users.begin(), users.end(), a.id < b.id)`.  The
library routine is represented by an insertion sort driven by the same
comparator; among users of equal id the library fixes no order, and nothing
below depends on the order chosen here. -/
def sortById : List User → List User
  | [] => []
  | u :: us => insertById u (sortById us)

/-- Lines 96-100 of `encode`: the vector `users`, that is
`calldb->user(0), ..., calldb->user(n-1)` appended in this order and then
sorted. The loop `for (uint i=0; i<n; i++)` does not run for `n <= 0`. -/
def selectUsers (db : List User) (n : Int) : List User :=
  sortById (db.take n.toNat)

/-- Modelled from the spec: `align_size(n, block)` (declared in `utils.hh`,
not part of the sources) "rounds a byte count up to the nearest multiple of a
block size". -/
def align_size (size block : Nat) : Nat :=
  if size % block = 0 then size else size + (block - size % block)

/-- The value of `sizeof(userdb_t)`: the 8 bytes of `magic` followed by the
32-bit `count` (the structure itself is declared in a header that is not part
of the sources; `clear` copies 8 bytes into `magic` and `setSize` stores a
`uint`). -/
def sizeofUserdb : Nat := 12

/-- The value of `sizeof(userdb_entry_t)`: the BCD number (4 bytes) followed
by the 8 bytes of `name`. -/
def sizeofEntry : Nat := 12

/-- Line 103 of `encode`: `align_size(sizeof(userdb_t)+n*sizeof(userdb_entry_t),
BLOCK_SIZE)`, computed in unsigned 64-bit arithmetic and stored in a `uint`. -/
def allocSize (n : Int) : Nat :=
  align_size ((sizeofUserdb + toU64 n * sizeofEntry) % 2 ^ 64) BLOCK_SIZE % 2 ^ 32

/-- Little-endian bytes of a 32-bit value (`qToLittleEndian` followed by the
store into the `count` field). -/
def le32 (x : Nat) : List Nat :=
  [x % 256, x / 256 % 256, x / 65536 % 256, x / 16777216 % 256]

/-- The eight bytes copied by `memcpy(magic, "ID-V001\0", 8)`. -/
def magic : List Nat := [0x49, 0x44, 0x2d, 0x56, 0x30, 0x30, 0x31, 0x00]

/-- The value stored by `userdb_t::setSize(uint n)`:
`std::min(n, uint(USERDB_MAX_ENTRIES))`. -/
def setSizeValue (n : Nat) : Nat := min n USERDB_MAX_ENTRIES

/-- Two decimal digits packed into one BCD byte. -/
def bcdByte (d : Nat) : Nat := (d / 10 % 10) * 16 + d % 10

/-- Modelled from the spec: `encode_dmr_id_bcd` (from `utils.hh`, not part of
the sources) stores a number as a BCD-encoded decimal integer, "8-digit radio
IDs packed as 4 BCD bytes", most significant digits first. -/
def encode_dmr_id_bcd (no : Nat) : List Nat :=
  [bcdByte (no / 1000000), bcdByte (no / 10000), bcdByte (no / 100), bcdByte no]

/-- Modelled from the spec: `encode_ascii(dst, text, size, fill)` (from
`utils.hh`, not part of the sources) writes a fixed-length string: "encode
pads/truncates to exact width".  A character is stored as the low byte of its
code. -/
def encode_ascii (text : String) (size fill : Nat) : List Nat :=
  (text.toList.take size).map (fun c => c.toNat % 256)
    ++ List.replicate (size - text.length) fill

/-- The text handed to `setName` by `userdb_entry_t::fromEntry`: the call, and
`call + " " + name` when the name is not empty. -/
def entryName (user : User) : String :=
  if user.name.isEmpty then user.call else user.call ++ " " ++ user.name

/-- The twelve bytes of an entry after `userdb_entry_t::fromEntry(user)`:
`setNumber(user.id)` then `setName(tmp)`. -/
def fromEntry (user : User) : List Nat :=
  encode_dmr_id_bcd user.id ++ encode_ascii (entryName user) 8 0x00

/-- An element of an image: a byte range at a fixed address. -/
structure Element where
  address : Nat
  data : List Nat
  deriving DecidableEq, Repr

/-- An image: its list of elements. -/
abbrev Image := List Element

/-- Whether the element covers the byte at `offset`. -/
def Element.covers (e : Element) (offset : Nat) : Bool :=
  decide (e.address ≤ offset) && decide (offset < e.address + e.data.length)

/-- Modelled from the spec: `addElement(offset, size)` (class `DFUFile`, not
part of the sources) "allocates a byte range within an image at a fixed
offset".  The content of a fresh element is not specified; it is the
parameter `fill`. -/
def Image.addElement (fill : Nat) (img : Image) (offset size : Nat) : Image :=
  img ++ [{ address := offset, data := List.replicate size fill }]

/-- Overwrite `buf` from position `pos` on with `bytes`; bytes that would fall
behind the end of the buffer are dropped. -/
def storeBytes (buf : List Nat) (pos : Nat) (bytes : List Nat) : List Nat :=
  buf.take pos ++ bytes.take (buf.length - pos) ++ buf.drop (pos + bytes.length)

/-- Modelled from the spec: `data(offset)` (class `DFUFile`, not part of the
sources) "returns a raw pointer into the union of all elements", that is into
the first element covering `offset`.  `Image.store img offset rel bytes` is a
store of `bytes` through that pointer advanced by `rel`; without a covering
element nothing is stored. -/
def Image.store : Image → Nat → Nat → List Nat → Image
  | [], _, _, _ => []
  | e :: es, offset, rel, bytes =>
    if e.covers offset then
      { e with data := storeBytes e.data (offset - e.address + rel) bytes } :: es
    else e :: Image.store es offset rel bytes

/-- Lines 110-112 of `encode`: `db[i].fromEntry(users[i])` for `i = k, k+1, ...`
over the remaining users, `db` being `data(OFFSET_USERDB+sizeof(userdb_t))`. -/
def storeEntries (img : Image) : Nat → List User → Image
  | _, [] => img
  | i, u :: us =>
    storeEntries (Image.store img (OFFSET_USERDB + sizeofUserdb) (i * sizeofEntry) (fromEntry u))
      (i + 1) us

/-- The users whose entries the loop of lines 110-112 writes, in the order
written: `users[i]` for `i = 0, ..., n-1`. -/
def encodedUsers (db : List User) (sel : Selection) : List User :=
  let n := entryCount db.length sel
  (selectUsers db n).take n.toNat

/-- `GD77CallsignDB::encode(calldb, selection)` on image 0 of the object: the
returned flag and the image afterwards.  `db` lists `calldb->user(0)`,
`calldb->user(1)`, ... and `calldb->count()` is its length. -/
def encode (fill : Nat) (img : Image) (db : List User) (sel : Selection) : Bool × Image :=
  let n := entryCount db.length sel
  if n = 0 then (true, img)
  else
    let size := allocSize n
    let img1 := Image.addElement fill img OFFSET_USERDB size
    -- userdb->clear(): magic and count = 0
    let img2 := Image.store img1 OFFSET_USERDB 0 magic
    let img3 := Image.store img2 OFFSET_USERDB 8 (le32 0)
    -- userdb->setSize(n)
    let img4 := Image.store img3 OFFSET_USERDB 8 (le32 (setSizeValue (toUint n)))
    (true, storeEntries img4 0 (encodedUsers db sel))

end GD77CallsignDB

/-! ## Part 2. `config.cc` -/

namespace YAML

/-- A node of the YAML document tree handled by `Config`. -/
inductive Node where
  | null
  | scalar (s : String)
  | seq (xs : List Node)
  | map (kvs : List (String × Node))

/-- The method `IsNull()`. -/
def Node.IsNull : Node → Bool
  | .null => true
  | _ => false

/-- The method `IsScalar()`. -/
def Node.IsScalar : Node → Bool
  | .scalar _ => true
  | _ => false

/-- The method `IsMap()`. -/
def Node.IsMap : Node → Bool
  | .map _ => true
  | _ => false

/-- First value stored under `key` in a list of map entries. -/
def lookupKey (key : String) : List (String × Node) → Option Node
  | [] => none
  | (k, v) :: rest => if k = key then some v else lookupKey key rest

/-- The read access `node[key]` on a constant node.  `none` stands for the
undefined node the library returns when there is no such entry (it converts to
`false` in a condition); a defined node converts to `true`. -/
def Node.get : Node → String → Option Node
  | .map kvs, key => lookupKey key kvs
  | _, _ => none

/-- The keys of a map node in insertion order (empty for other nodes). -/
def Node.keys : Node → List String
  | .map kvs => kvs.map Prod.fst
  | _ => []

/-- Replace the value of the first entry for `key`, or append a new entry. -/
def assignKey (key : String) (v : Node) : List (String × Node) → List (String × Node)
  | [] => [(key, v)]
  | (k, w) :: rest => if k = key then (k, v) :: rest else (k, w) :: assignKey key v rest

/-- The entries a sequence gets when the library converts it to a map: the
elements under their positions `"0"`, `"1"`, ... starting from `i`. -/
def seqEntries : Nat → List Node → List (String × Node)
  | _, [] => []
  | i, x :: xs => (toString i, x) :: seqEntries (i + 1) xs

/-- The assignment `node[key] = v` on a mutable node.  A null node becomes a
map, a sequence is converted to a map first, and for a scalar the library
throws (`none`). -/
def Node.set : Node → String → Node → Option Node
  | .map kvs, key, v => some (.map (assignKey key v kvs))
  | .null, key, v => some (.map [(key, v)])
  | .seq xs, key, v => some (.map (assignKey key v (seqEntries 0 xs)))
  | .scalar _, _, _ => none

/-- The nested assignment `node[k1][k2] = v`: the entry `k1` is created as a
null node when missing. -/
def Node.set2 (node : Node) (k1 k2 : String) (v : Node) : Option Node :=
  match (node.get k1).getD .null |>.set k2 v with
  | none => none
  | some inner => node.set k1 inner

end YAML

open YAML

/-- An object of the configuration tree, as far as `Config` looks at it: its
identity and whether `is<RadioID>()` holds. -/
structure Obj where
  uid : Nat
  isRadioID : Bool
  deriving DecidableEq, Repr

/-- Modelled from the spec: the `Context` (class `ConfigItem::Context`, not part
of the sources) is "the bidirectional id ↔ object resolution table used during
label/parse/link", together with the format version set by `setVersion`. -/
structure Context where
  version : String
  table : List (String × Obj)
  deriving DecidableEq, Repr

/-- The method `setVersion`. -/
def Context.setVersion (ctx : Context) (v : String) : Context := { ctx with version := v }

/-- The method `getObj(id)`: the object registered under the textual id. -/
def Context.getObj (ctx : Context) (id : String) : Option Obj :=
  (ctx.table.find? (fun p => p.1 = id)).map Prod.snd

/-- The method `contains(id)` for a textual id. -/
def Context.containsId (ctx : Context) (id : String) : Bool := (ctx.getObj id).isSome

/-- The method `contains(obj)` for an object. -/
def Context.containsObj (ctx : Context) (o : Obj) : Bool :=
  (ctx.table.find? (fun p => p.2 = o)).isSome

/-- The method `getId(obj)`: the textual id assigned to the object (empty when
there is none). -/
def Context.getId (ctx : Context) (o : Obj) : String :=
  ((ctx.table.find? (fun p => p.2 = o)).map Prod.fst).getD ""

/-- Registration of freshly parsed objects under their ids. -/
def Context.addAll (ctx : Context) (created : List (String × Obj)) : Context :=
  { ctx with table := ctx.table ++ created }

/-- Modelled from the spec: the `RadioIDList` (not part of the sources) is an
ordered sequence of radio IDs with "a distinguished default entry
(index-addressed)". -/
structure RadioIDList where
  ids : List Obj
  default : Option Nat
  deriving DecidableEq, Repr

/-- The method `count()`. -/
def RadioIDList.count (l : RadioIDList) : Nat := l.ids.length

/-- The method `indexOf(obj)`: the position of the object, `-1` when it is not
in the list. -/
def RadioIDList.indexOf (l : RadioIDList) (o : Obj) : Int :=
  if o ∈ l.ids then (l.ids.indexOf o : Int) else -1

/-- Modelled from the spec: `setDefaultId(idx)` makes the entry addressed by
`idx` the default; an index that addresses no entry leaves the list without a
default. -/
def RadioIDList.setDefaultId (l : RadioIDList) (idx : Int) : RadioIDList :=
  { l with default := if 0 ≤ idx ∧ idx < (l.count : Int) then some idx.toNat else none }

/-- The method `defaultId()`: the default radio ID, if there is one. -/
def RadioIDList.defaultId (l : RadioIDList) : Option Obj :=
  match l.default with
  | none => none
  | some i => l.ids[i]?

/-- The top-level keys whose collections `Config` owns. -/
inductive Key where
  | settings | radioIDs | contacts | groupLists | channels | zones
  | scanLists | positioning | roaming
  deriving DecidableEq, Repr

/-- The key as written in the document. -/
def Key.name : Key → String
  | .settings => "settings"
  | .radioIDs => "radioIDs"
  | .contacts => "contacts"
  | .groupLists => "groupLists"
  | .channels => "channels"
  | .zones => "zones"
  | .scanLists => "scanLists"
  | .positioning => "positioning"
  | .roaming => "roaming"

/-- The state of a `Config` object: the modified flag and the owned
collections (the settings object holds no list). -/
structure Config where
  modified : Bool
  radioIDs : RadioIDList
  contacts : List Obj
  rxGroupLists : List Obj
  channels : List Obj
  zones : List Obj
  scanlists : List Obj
  gpsSystems : List Obj
  roaming : List Obj
  tytExtension : Bool
  deriving DecidableEq, Repr

/-- The behaviour of the member objects, whose classes are not part of the
sources: what their `serialize`, `parse` and `link` return.  `parse` also
yields the objects it creates, with the ids it registers for them in the
context. -/
structure Members where
  VERSION_STRING : String
  serialize : Key → Context → Node
  serializeTyt : Context → Node
  parse : Key → Node → Context → Bool × List (String × Obj)
  parseItem : Node → Context → Bool
  link : Key → Option Node → Context → Bool
  linkItem : Node → Context → Bool

namespace Config

/-- The statement `if ((node[key] = value).IsNull()) return false;`: the node
after the assignment and whether execution goes on. -/
def assignChecked (node : Node) (key : String) (value : Node) : Option (Bool × Node) :=
  match node.set key value with
  | none => none
  | some node1 => some (!value.IsNull, node1)

/-- Lines 158-171 of `populate`: the same statement guarded by
`if (collection->count())`. -/
def assignOptional (count : Nat) (node : Node) (key : String) (value : Node) :
    Option (Bool × Node) :=
  if count ≠ 0 then assignChecked node key value else some (true, node)

/-- Modelled from the spec: `ConfigItem::populate` (the base class is not part
of the sources) attaches the extension block, a "vendor-keyed map attached
under a property name" (for `Config` the property `tyt`), when the extension
is set. -/
def populateItem (m : Members) (cfg : Config) (node : Node) (context : Context) :
    Option (Bool × Node) :=
  if cfg.tytExtension then assignChecked node "tyt" (m.serializeTyt context)
  else some (true, node)

/-- Lines 143-176 of `populate`: the collections from `radioIDs` on, then the
base class. -/
def populateLists (m : Members) (cfg : Config) (node : Node) (context : Context) :
    Option (Bool × Node) := do
  let (go, node) ← assignChecked node "radioIDs" (m.serialize .radioIDs context)
  if !go then return (false, node)
  let (go, node) ← assignChecked node "contacts" (m.serialize .contacts context)
  if !go then return (false, node)
  let (go, node) ← assignChecked node "groupLists" (m.serialize .groupLists context)
  if !go then return (false, node)
  let (go, node) ← assignChecked node "channels" (m.serialize .channels context)
  if !go then return (false, node)
  let (go, node) ← assignChecked node "zones" (m.serialize .zones context)
  if !go then return (false, node)
  let (go, node) ← assignOptional cfg.scanlists.length node "scanLists"
    (m.serialize .scanLists context)
  if !go then return (false, node)
  let (go, node) ← assignOptional cfg.gpsSystems.length node "positioning"
    (m.serialize .positioning context)
  if !go then return (false, node)
  let (go, node) ← assignOptional cfg.roaming.length node "roaming"
    (m.serialize .roaming context)
  if !go then return (false, node)
  populateItem m cfg node context

/-- Lines 140-141 of `populate`: the `defaultID` field below `settings`. -/
def populateDefaultID (cfg : Config) (node : Node) (context : Context) : Option Node :=
  match cfg.radioIDs.defaultId with
  | some d =>
    if context.containsObj d then
      node.set2 "settings" "defaultID" (.scalar (context.getId d))
    else some node
  | none => some node

/-- The method `Config::populate(node, context)`: `none` when the YAML
library throws, otherwise the returned flag and the node afterwards. -/
def populate (m : Members) (cfg : Config) (node : Node) (context : Context) :
    Option (Bool × Node) := do
  let node ← node.set "version" (.scalar m.VERSION_STRING)
  let (go, node) ← assignChecked node "settings" (m.serialize .settings context)
  if !go then return (false, node)
  let node ← populateDefaultID cfg node context
  populateLists m cfg node context

/-- The objects a collection's `parse` creates become members of that
collection. -/
def adopt (cfg : Config) (k : Key) (objs : List Obj) : Config :=
  match k with
  | .settings => cfg
  | .radioIDs => { cfg with radioIDs := { cfg.radioIDs with ids := cfg.radioIDs.ids ++ objs } }
  | .contacts => { cfg with contacts := cfg.contacts ++ objs }
  | .groupLists => { cfg with rxGroupLists := cfg.rxGroupLists ++ objs }
  | .channels => { cfg with channels := cfg.channels ++ objs }
  | .zones => { cfg with zones := cfg.zones ++ objs }
  | .scanLists => { cfg with scanlists := cfg.scanlists ++ objs }
  | .positioning => { cfg with gpsSystems := cfg.gpsSystems ++ objs }
  | .roaming => { cfg with roaming := cfg.roaming ++ objs }

/-- The state while `Config::parse` runs: whether it is still going on, the
configuration, the context, and the collections whose `parse` was called. -/
structure ParseResult where
  ok : Bool
  config : Config
  ctx : Context
  calls : List Key
  deriving DecidableEq, Repr

/-- One statement `if (node[key] && (! member->parse(node[key], ctx, err)))
return false;`.  `ok = false` afterwards means `return false`. -/
def parseStep (m : Members) (node : Node) (k : Key) (s : ParseResult) : ParseResult :=
  match node.get k.name with
  | none => s
  | some child =>
    let r := m.parse k child s.ctx
    { ok := r.1, config := adopt s.config k (r.2.map Prod.snd), ctx := s.ctx.addAll r.2,
      calls := s.calls ++ [k] }

/-- A run of such statements, left at the first `return false`. -/
def parseSteps (m : Members) (node : Node) : List Key → ParseResult → ParseResult
  | [], s => s
  | k :: ks, s =>
    let s1 := parseStep m node k s
    if s1.ok then parseSteps m node ks s1 else s1

/-- Lines 364-370 of `parse`: the version put into the context. -/
def documentVersion (node : Node) : String :=
  match node.get "version" with
  | some (.scalar v) => v
  | _ => "0.9.0"

/-- The method `Config::parse(node, ctx, err)`. -/
def parse (m : Members) (cfg : Config) (node : Node) (ctx : Context) : ParseResult :=
  if !node.IsMap then { ok := false, config := cfg, ctx := ctx, calls := [] }
  else
    let ctx1 := ctx.setVersion (documentVersion node)
    let s := parseSteps m node
      [.settings, .radioIDs, .contacts, .groupLists, .channels, .zones,
       .scanLists, .positioning, .roaming]
      { ok := true, config := cfg, ctx := ctx1, calls := [] }
    if !s.ok then s
    else { s with ok := m.parseItem node s.ctx }

/-- The state while `Config::link` runs. -/
structure LinkResult where
  ok : Bool
  config : Config
  calls : List Key
  deriving DecidableEq, Repr

/-- One statement `if (node[key] && (! member->link(node[key], ctx, err)))
return false;`. -/
def linkStep (m : Members) (node : Node) (ctx : Context) (k : Key) (s : LinkResult) :
    LinkResult :=
  match node.get k.name with
  | none => s
  | some child => { s with ok := m.link k (some child) ctx, calls := s.calls ++ [k] }

/-- A run of such statements, left at the first `return false`. -/
def linkSteps (m : Members) (node : Node) (ctx : Context) : List Key → LinkResult → LinkResult
  | [], s => s
  | k :: ks, s =>
    let s1 := linkStep m node ctx k s
    if s1.ok then linkSteps m node ctx ks s1 else s1

/-- The condition of line 409, `node["settings"] && node["settings"]["defaultID"]
&& node["settings"]["defaultID"].IsScalar()`, and the id read in line 411. -/
def defaultIDOf (node : Node) : Option String :=
  match node.get "settings" with
  | none => none
  | some settings =>
    match settings.get "defaultID" with
    | some (.scalar id) => some id
    | _ => none

/-- Lines 409-424 of `link`: the radio-ID list after the resolution of the
default radio ID, `none` for the `return false` of line 419. -/
def linkDefaultID (radioIDs : RadioIDList) (node : Node) (ctx : Context) : Option RadioIDList :=
  match defaultIDOf node with
  | some id =>
    match ctx.getObj id with
    | some d =>
      -- `ctx.contains(id) && ctx.getObj(id)->is<RadioID>()`
      if d.isRadioID then some (radioIDs.setDefaultId (radioIDs.indexOf d)) else none
    | none => none
  | none =>
    if radioIDs.count ≠ 0 then some (radioIDs.setDefaultId 0) else some radioIDs

/-- The method `Config::link(node, ctx, err)`. -/
def link (m : Members) (cfg : Config) (node : Node) (ctx : Context) : LinkResult :=
  if !m.link .radioIDs (node.get "radioIDs") ctx then
    { ok := false, config := cfg, calls := [.radioIDs] }
  else if !m.link .settings (node.get "settings") ctx then
    { ok := false, config := cfg, calls := [.radioIDs, .settings] }
  else
    match linkDefaultID cfg.radioIDs node ctx with
    | none => { ok := false, config := cfg, calls := [.radioIDs, .settings] }
    | some radioIDs =>
      let s := linkSteps m node ctx
        [.contacts, .groupLists, .channels, .zones, .scanLists, .positioning, .roaming]
        { ok := true, config := { cfg with radioIDs := radioIDs },
          calls := [.radioIDs, .settings] }
      if !s.ok then s
      else { s with ok := m.linkItem node ctx }

end Config

/-! ## Part 2b. `config.cc`: skipped steps, `readYAML`, notifications, channel predicates -/

namespace Config

/-- The list a collection of the configuration holds (the settings object
holds none). -/
def collection (cfg : Config) : Key → List Obj
  | .settings => []
  | .radioIDs => cfg.radioIDs.ids
  | .contacts => cfg.contacts
  | .groupLists => cfg.rxGroupLists
  | .channels => cfg.channels
  | .zones => cfg.zones
  | .scanLists => cfg.scanlists
  | .positioning => cfg.gpsSystems
  | .roaming => cfg.roaming

/-- The collections `Config::parse` visits, in the order of lines 372-389. -/
def parseKeys : List Key :=
  [.settings, .radioIDs, .contacts, .groupLists, .channels, .zones,
   .scanLists, .positioning, .roaming]

/-- The collections `Config::link` visits behind the default-ID resolution,
in the order of lines 426-439. -/
def linkKeys : List Key :=
  [.contacts, .groupLists, .channels, .zones, .scanLists, .positioning, .roaming]

/-- The body of `Config::parse` run over the collections `ks` only: with
`parseKeys` it is `parse` itself, with one key erased it is what remains of
`parse` when the statement for that key is left out. -/
def parseOver (m : Members) (cfg : Config) (node : Node) (ctx : Context) (ks : List Key) :
    ParseResult :=
  if !node.IsMap then { ok := false, config := cfg, ctx := ctx, calls := [] }
  else
    let ctx1 := ctx.setVersion (documentVersion node)
    let s := parseSteps m node ks { ok := true, config := cfg, ctx := ctx1, calls := [] }
    if !s.ok then s
    else { s with ok := m.parseItem node s.ctx }

/-- The body of `Config::link` with the statements of lines 426-439 run over
the collections `ks` only: with `linkKeys` it is `link` itself. -/
def linkOver (m : Members) (cfg : Config) (node : Node) (ctx : Context) (ks : List Key) :
    LinkResult :=
  if !m.link .radioIDs (node.get "radioIDs") ctx then
    { ok := false, config := cfg, calls := [.radioIDs] }
  else if !m.link .settings (node.get "settings") ctx then
    { ok := false, config := cfg, calls := [.radioIDs, .settings] }
  else
    match linkDefaultID cfg.radioIDs node ctx with
    | none => { ok := false, config := cfg, calls := [.radioIDs, .settings] }
    | some radioIDs =>
      let s := linkSteps m node ctx ks
        { ok := true, config := { cfg with radioIDs := radioIDs },
          calls := [.radioIDs, .settings] }
      if !s.ok then s
      else { s with ok := m.linkItem node ctx }

/-- The signals of the member objects that the constructor connects. -/
inductive Signal where
  | modified | elementAdded | elementRemoved | elementModified
  deriving DecidableEq, Repr

/-- The connections made by the constructor `Config::Config` (lines 26-50), in
this order: the sending member and its signal.  The receiving slot is
`onConfigModified` in every line. -/
def connections : List (Key × Signal) :=
  [(.settings, .modified),
   (.radioIDs, .elementAdded), (.radioIDs, .elementRemoved), (.radioIDs, .elementModified),
   (.contacts, .elementAdded), (.contacts, .elementRemoved), (.contacts, .elementModified),
   (.groupLists, .elementAdded), (.groupLists, .elementRemoved),
   (.groupLists, .elementModified),
   (.channels, .elementAdded), (.channels, .elementRemoved), (.channels, .elementModified),
   (.zones, .elementAdded), (.zones, .elementRemoved), (.zones, .elementModified),
   (.scanLists, .elementAdded), (.scanLists, .elementRemoved), (.scanLists, .elementModified),
   (.positioning, .elementAdded), (.positioning, .elementRemoved),
   (.positioning, .elementModified),
   (.roaming, .elementAdded), (.roaming, .elementRemoved), (.roaming, .elementModified)]

/-- The root object together with the number of `modified(this)`
notifications it has raised so far. -/
structure Root where
  config : Config
  notifications : Nat
  deriving DecidableEq, Repr

/-- The slot `Config::onConfigModified()`: `_modified = true; emit
modified(this);`. -/
def onConfigModified (r : Root) : Root :=
  { config := { r.config with modified := true }, notifications := r.notifications + 1 }

/-- The method `Config::isModified()`. -/
def isModified (r : Root) : Bool := r.config.modified

/-- The method `Config::setModified(modified)`. -/
def setModified (r : Root) (modified : Bool) : Root :=
  { r with config := { r.config with modified := modified } }

/-- The slot run once for every connection in `cs`. -/
def runSlots (r : Root) : List (Key × Signal) → Root
  | [] => r
  | _ :: cs => runSlots (onConfigModified r) cs

/-- A member raises a signal: the slot of every connection made for this
sender and signal runs. -/
def emit (r : Root) (sender : Key) (signal : Signal) : Root :=
  runSlots r (connections.filter (fun c => c = (sender, signal)))

/-- The same signal raised `n` times in a row. -/
def emitMany (r : Root) (sender : Key) (signal : Signal) : Nat → Root
  | 0 => r
  | n + 1 => emitMany (emit r sender signal) sender signal n

/-- What the member classes, which are not part of the sources, raise while
they are cleared: the number of `modified(this)` notifications raised by the
base class `ConfigItem::clear()`, the number of `modified` signals of the
settings object, and for a collection of `n` elements the number of
`elementRemoved` signals. -/
structure ClearSignals where
  item : Nat
  settings : Nat
  removed : Key → Nat → Nat

/-- Modelled from the spec: by the invariant "every mutation to any owned
collection ... raises a `modified(root)` notification", a collection that is
cleared announces each element it removes with one `elementRemoved` signal;
the base class and the settings object raise nothing. -/
def removalSignals : ClearSignals where
  item := 0
  settings := 0
  removed := fun _ n => n

/-- The configuration with the collection `k` emptied (the radio-ID list
loses its default with its entries). -/
def emptied (cfg : Config) : Key → Config
  | .settings => cfg
  | .radioIDs => { cfg with radioIDs := { ids := [], default := none } }
  | .contacts => { cfg with contacts := [] }
  | .groupLists => { cfg with rxGroupLists := [] }
  | .channels => { cfg with channels := [] }
  | .zones => { cfg with zones := [] }
  | .scanLists => { cfg with scanlists := [] }
  | .positioning => { cfg with gpsSystems := [] }
  | .roaming => { cfg with roaming := [] }

/-- One statement `member->clear();` of `Config::clear()` for a collection: the
collection is emptied and raises its `elementRemoved` signals. -/
def clearMember (cs : ClearSignals) (r : Root) (k : Key) : Root :=
  emitMany { r with config := emptied r.config k } k .elementRemoved
    (cs.removed k (collection r.config k).length)

/-- The method `Config::clear()`.  Of the base class `ConfigItem::clear()` and
of `_settings->clear()`, whose classes are not part of the sources, the
signals they raise are what counts here; the collections are emptied one
after the other, and the signals connected in the constructor stay
connected throughout. -/
def clear (cs : ClearSignals) (r : Root) : Root :=
  -- ConfigItem::clear();
  let r := { r with notifications := r.notifications + cs.item }
  -- _settings->clear();
  let r := emitMany r .settings .modified cs.settings
  let r := clearMember cs r .radioIDs
  let r := clearMember cs r .contacts
  let r := clearMember cs r .groupLists
  let r := clearMember cs r .channels
  let r := clearMember cs r .zones
  let r := clearMember cs r .scanLists
  let r := clearMember cs r .positioning
  let r := clearMember cs r .roaming
  -- emit modified(this);
  { r with notifications := r.notifications + 1 }

/-- The method `Config::readYAML(filename, err)`.  `loaded` is the outcome of
`YAML::LoadFile`: `none` when it throws or yields an undefined node.  The
notifications raised while the members parse and link are not counted. -/
def readYAML (cs : ClearSignals) (m : Members) (r : Root) (loaded : Option Node) :
    Bool × Root :=
  match loaded with
  | none => (false, r)
  | some node =>
    let r1 := clear cs r
    let context : Context := { version := "", table := [] }
    let p := parse m r1.config node context
    if !p.ok then (false, { r1 with config := p.config })
    else
      let l := link m p.config node p.ctx
      if !l.ok then (false, { r1 with config := l.config })
      else (true, { r1 with config := l.config })

/-- The method `Config::readCSV(stream, errorMessage)`: `if (CSVReader::read(this,
stream, errorMessage)) _modified = false; else return false; return true;`.
`read` stands for `CSVReader::read`, which is not part of the sources: its
result, and the root as the reader leaves it. -/
def readCSV (read : Root → Bool × Root) (r : Root) : Bool × Root :=
  let res := read r
  if res.1 then (true, { res.2 with config := { res.2.config with modified := false } })
  else (false, res.2)

/-- The method `Config::readCSV(filename, errorMessage)`: `opened` is the
outcome of `file.open(QIODevice::ReadOnly)`; an opened file is handed to
`readCSV(stream, errorMessage)`. -/
def readCSVFile (opened : Bool) (read : Root → Bool × Root) (r : Root) : Bool × Root :=
  if !opened then (false, r) else readCSV read r

/-- An operation on the root object, as far as the modified flag is
concerned: a signal of a member, or one of the methods of `config.cc` that
change the root. -/
inductive Op where
  | signal (sender : Key) (signal : Signal)
  | setModified (modified : Bool)
  | clear (cs : ClearSignals)
  | readCSV (read : Root → Bool × Root)
  | readCSVFile (opened : Bool) (read : Root → Bool × Root)
  | readYAML (cs : ClearSignals) (m : Members) (loaded : Option Node)

/-- One operation. -/
def step (r : Root) : Op → Root
  | .signal sender signal => emit r sender signal
  | .setModified modified => setModified r modified
  | .clear cs => clear cs r
  | .readCSV read => (readCSV read r).2
  | .readCSVFile opened read => (readCSVFile opened read r).2
  | .readYAML cs m loaded => (readYAML cs m r loaded).2

/-- A sequence of operations. -/
def run (r : Root) : List Op → Root
  | [] => r
  | op :: ops => run (step r op) ops

/-- Whether the operation, run on `r`, is none of the resets of the flag: it
is not `setModified(false)` and not a `readCSV` that succeeds.  Of the reader
of a failing `readCSV`, code that is not part of the sources, it asks that
the reader left the flag set. -/
def keepsFlag (r : Root) : Op → Bool
  | .setModified modified => modified
  | .readCSV read => !(read r).1 && (read r).2.config.modified
  | .readCSVFile opened read => !opened || (!(read r).1 && (read r).2.config.modified)
  | _ => true

/-- No operation of the run from `r` resets the flag. -/
def noReset (r : Root) : List Op → Bool
  | [] => true
  | op :: ops => keepsFlag r op && noReset (step r op) ops

/-- A channel of the channel list, as far as `requiresRoaming` and
`requiresGPS` look at it: an `AnalogChannel` with its `aprsSystem()`, or a
`DigitalChannel` with its `roamingZone()` and `aprsObj()`; `none` is the null
pointer of an unset reference. -/
inductive Channel where
  | analog (aprsSystem : Option Obj)
  | digital (roamingZone : Option Obj) (aprsObj : Option Obj)
  deriving DecidableEq, Repr

/-- The method `Config::requiresRoaming()` over the channels `channel(0)`,
`channel(1)`, ...: the loop leaves with `true` at the first digital channel
whose roaming zone is set. -/
def requiresRoaming : List Channel → Bool
  | [] => false
  | .analog _ :: rest => requiresRoaming rest
  | .digital roamingZone _ :: rest =>
    if roamingZone.isSome then true else requiresRoaming rest

/-- The method `Config::requiresGPS()`: the loop leaves with `true` at the
first analog channel with an APRS system or digital channel with a
positioning system. -/
def requiresGPS : List Channel → Bool
  | [] => false
  | .analog aprsSystem :: rest =>
    if aprsSystem.isSome then true else requiresGPS rest
  | .digital _ aprsObj :: rest =>
    if aprsObj.isSome then true else requiresGPS rest

end Config

/-! ## Part 2c. `d878uv.cc`: the firmware version check -/

namespace D878UV

/-- An issue of the verification: its `VerifyIssue::Type`, given by the value
of the enumerator (the enumeration is declared in a header that is not part
of the sources; `std::max` compares these values), and its message. -/
structure VerifyIssue where
  type : Nat
  message : String
  deriving DecidableEq, Repr

/-- The message of line 159 with `%1` and `%2` filled in. -/
def newerMessage (version supported : String) : String :=
  "You are likely running a newer firmware version (" ++ version
    ++ ") than supported (" ++ supported ++ ") by qdmr. "
    ++ "Notify the developers of qdmr about the new firmware version."

/-- The message of line 165 with `%1` and `%2` filled in. -/
def olderMessage (version supported : String) : String :=
  "You are likely running an older firmware version (" ++ version
    ++ ") than supported (" ++ supported ++ ") by qdmr. "
    ++ "Condsider updating your firmware."

/-- Lexicographic comparison of two character sequences by the numeric values
of the characters. -/
def lessChars : List Char → List Char → Bool
  | _, [] => false
  | [], _ :: _ => true
  | a :: as, b :: bs =>
    if a.toNat < b.toNat then true
    else if b.toNat < a.toNat then false
    else lessChars as bs

/-- The operator `QString < QString`: the strings are compared character by
character by numeric value, a proper prefix being smaller.  (`QString`
compares UTF-16 code units; against the ASCII string `"V100"` the outcome is
the same as by code points.) -/
def qstringLess (a b : String) : Bool := lessChars a.toList b.toList

/-- The method `D878UV::verifyConfig`.  `WARNING` is the value of the
enumerator `VerifyIssue::WARNING`, `version` the member `_version`, and `base`
what `AnytoneRadio::verifyConfig` returns together with the issue list it
leaves. -/
def verifyConfig (WARNING : Nat) (version : String) (base : Nat × List VerifyIssue) :
    Nat × List VerifyIssue :=
  let supported := "V100"
  let issue := base.1
  let issues := base.2
  if qstringLess supported version then
    (max issue WARNING,
      issues ++ [{ type := WARNING, message := newerMessage version supported }])
  else if qstringLess version supported then
    (max issue WARNING,
      issues ++ [{ type := WARNING, message := olderMessage version supported }])
  else (issue, issues)

end D878UV

/-! ## Part 2d. `opengd77base_codeplug.hh`: sizes, limits and offsets of the banks -/

namespace OpenGD77BaseCodeplug

/-- The constant `ChannelElement::size()`. -/
def ChannelElement.size : Nat := 0x0038

/-- The constant `ChannelBankElement::size()`. -/
def ChannelBankElement.size : Nat := 0x1c10

/-- The constant `ChannelBankElement::Limit::channelCount()`. -/
def ChannelBankElement.Limit.channelCount : Nat := 128

/-- The constant `ChannelBankElement::Offset::bitmask()`. -/
def ChannelBankElement.Offset.bitmask : Nat := 0x0000

/-- The constant `ChannelBankElement::Offset::channels()`. -/
def ChannelBankElement.Offset.channels : Nat := 0x0010

/-- Modelled from the spec: the record of slot `idx` of the channel bank starts
at the record area plus `idx` record sizes ("fixed-size records are packed at
a record stride inside a bank"); the accessor `get(idx)` is defined in a file
that is not part of the sources. -/
def ChannelBankElement.channelOffset (idx : Nat) : Nat :=
  ChannelBankElement.Offset.channels + idx * ChannelElement.size

/-- The constant `APRSSettingsElement::size()`. -/
def APRSSettingsElement.size : Nat := 0x40

/-- The constant `APRSSettingsBankElement::size()`. -/
def APRSSettingsBankElement.size : Nat := 0x40

/-- The constant `APRSSettingsBankElement::Limit::systems()`. -/
def APRSSettingsBankElement.Limit.systems : Nat := 8

/-- The constant `APRSSettingsBankElement::Offset::systems()`. -/
def APRSSettingsBankElement.Offset.systems : Nat := 0x0000

/-- The constant `APRSSettingsBankElement::Offset::betweenSystems()`. -/
def APRSSettingsBankElement.Offset.betweenSystems : Nat := APRSSettingsElement.size

/-- The start of the record that `APRSSettingsBankElement::system(idx)`
addresses: `Offset::systems() + idx * Offset::betweenSystems()`. -/
def APRSSettingsBankElement.systemOffset (idx : Nat) : Nat :=
  APRSSettingsBankElement.Offset.systems + idx * APRSSettingsBankElement.Offset.betweenSystems

/-- The constant `DTMFContactElement::size()`. -/
def DTMFContactElement.size : Nat := 0x0020

/-- The constant `DTMFContactBankElement::Limit::contacts()`. -/
def DTMFContactBankElement.Limit.contacts : Nat := 64

/-- The constant `DTMFContactBankElement::size()`. -/
def DTMFContactBankElement.size : Nat :=
  DTMFContactBankElement.Limit.contacts * DTMFContactElement.size

/-- The constant `DTMFContactBankElement::Offset::contacts()`. -/
def DTMFContactBankElement.Offset.contacts : Nat := 0x0000

/-- The constant `DTMFContactBankElement::Offset::betweenContacts()`. -/
def DTMFContactBankElement.Offset.betweenContacts : Nat := DTMFContactElement.size

/-- The start of the record that `DTMFContactBankElement::contact(n)`
addresses. -/
def DTMFContactBankElement.contactOffset (n : Nat) : Nat :=
  DTMFContactBankElement.Offset.contacts + n * DTMFContactBankElement.Offset.betweenContacts

/-- The constant `ZoneElement::size()`. -/
def ZoneElement.size : Nat := 0x00b0

/-- The constant `ZoneBankElement::Limit::zoneCount()`. -/
def ZoneBankElement.Limit.zoneCount : Nat := 68

/-- The constant `ZoneBankElement::size()`. -/
def ZoneBankElement.size : Nat := 0x0020 + ZoneBankElement.Limit.zoneCount * ZoneElement.size

/-- The constant `ZoneBankElement::Offset::bitmap()`. -/
def ZoneBankElement.Offset.bitmap : Nat := 0x0000

/-- The constant `ZoneBankElement::Offset::zones()`. -/
def ZoneBankElement.Offset.zones : Nat := 0x0020

/-- The constant `ZoneBankElement::Offset::betweenZones()`. -/
def ZoneBankElement.Offset.betweenZones : Nat := ZoneElement.size

/-- The start of the record that `ZoneBankElement::zone(n)` addresses. -/
def ZoneBankElement.zoneOffset (n : Nat) : Nat :=
  ZoneBankElement.Offset.zones + n * ZoneBankElement.Offset.betweenZones

end OpenGD77BaseCodeplug

/-! ## Part 2e. The band table of `d878uv.cc`, bit flags of the channel element, entry decoding -/

namespace D878UV

/-- The structure `Radio::Features` with the fields the table
`_d878uv_features` initialises.  A frequency range is a pair of limits in MHz
(the literals of the source are whole numbers). -/
structure Features where
  betaWarning : Bool
  hasDigital : Bool
  hasAnalog : Bool
  frequencyLimits : List (Nat × Nat)
  maxRadioIDs : Nat
  maxNameLength : Nat
  maxIntroLineLength : Nat
  maxChannels : Nat
  maxChannelNameLength : Nat
  allowChannelNoDefaultContact : Bool
  maxZones : Nat
  maxZoneNameLength : Nat
  maxChannelsInZone : Nat
  hasABZone : Bool
  hasScanlists : Bool
  maxScanlists : Nat
  maxScanlistNameLength : Nat
  maxChannelsInScanlist : Nat
  scanListNeedsPriority : Bool
  maxContacts : Nat
  maxContactNameLength : Nat
  maxGrouplists : Nat
  maxGrouplistNameLength : Nat
  maxContactsInGrouplist : Nat
  hasGPS : Bool
  maxGPSSystems : Nat
  hasAPRS : Bool
  maxAPRSSystems : Nat
  hasRoaming : Bool
  maxRoamingChannels : Nat
  maxRoamingZones : Nat
  maxChannelsInRoamingZone : Nat
  hasCallsignDB : Bool
  callsignDBImplemented : Bool
  maxCallsignsInDB : Nat
  deriving DecidableEq, Repr

/-- The static table `_d878uv_features` (lines 13-71). -/
def _d878uv_features : Features where
  betaWarning := true
  hasDigital := true
  hasAnalog := true
  frequencyLimits := [(136, 174), (220, 225), (400, 480)]
  maxRadioIDs := 250
  maxNameLength := 16
  maxIntroLineLength := 14
  maxChannels := 4000
  maxChannelNameLength := 16
  allowChannelNoDefaultContact := false
  maxZones := 250
  maxZoneNameLength := 16
  maxChannelsInZone := 250
  hasABZone := false
  hasScanlists := true
  maxScanlists := 250
  maxScanlistNameLength := 16
  maxChannelsInScanlist := 31
  scanListNeedsPriority := false
  maxContacts := 10000
  maxContactNameLength := 16
  maxGrouplists := 250
  maxGrouplistNameLength := 16
  maxContactsInGrouplist := 64
  hasGPS := true
  maxGPSSystems := 8
  hasAPRS := true
  maxAPRSSystems := 1
  hasRoaming := true
  maxRoamingChannels := 250
  maxRoamingZones := 64
  maxChannelsInRoamingZone := 64
  hasCallsignDB := true
  callsignDBImplemented := true
  maxCallsignsInDB := 200000

/-- The member `_features` that `features()` returns, as the constructor
`D878UV::D878UV` leaves it: the copy of `_d878uv_features` made by the
initialiser, with `frequencyLimits` assigned by the `switch (info.bands)` of
lines 82-136.  `bands` is the band code the device reports. -/
def features (bands : Nat) : Features :=
  let _features := _d878uv_features
  match bands with
  | 0x00 | 0x01 | 0x04 => { _features with frequencyLimits := [(136, 174), (400, 480)] }
  | 0x02 => { _features with frequencyLimits := [(136, 174), (430, 440)] }
  | 0x03 | 0x05 => { _features with frequencyLimits := [(144, 146), (430, 440)] }
  | 0x06 => { _features with frequencyLimits := [(136, 174), (446, 447)] }
  | 0x07 => { _features with frequencyLimits := [(144, 148), (420, 450)] }
  | 0x08 => { _features with frequencyLimits := [(136, 174), (400, 470)] }
  | 0x09 => { _features with frequencyLimits := [(144, 146), (430, 432)] }
  | 0x0a => { _features with frequencyLimits := [(144, 148), (430, 450)] }
  | 0x0b => { _features with frequencyLimits := [(136, 174), (400, 520)] }
  | 0x0c => { _features with frequencyLimits := [(136, 174), (400, 490)] }
  | 0x0d => { _features with frequencyLimits := [(136, 174), (403, 470)] }
  | 0x0e => { _features with frequencyLimits := [(136, 174), (220, 225), (400, 520)] }
  | 0x0f => { _features with frequencyLimits := [(144, 148), (400, 520)] }
  | 0x10 => { _features with frequencyLimits := [(144, 147), (430, 440)] }
  | 0x11 => { _features with frequencyLimits := [(136, 174)] }
  | _ => { _features with frequencyLimits := [(136, 174), (400, 480)] }

/-- The value of the decimal digits `cs`, `none` when a character is no
digit. -/
def digitsValue : List Char → Nat → Option Nat
  | [], acc => some acc
  | c :: cs, acc =>
    if 48 ≤ c.toNat ∧ c.toNat ≤ 57 then digitsValue cs (acc * 10 + (c.toNat - 48)) else none

/-- The number a version string such as `V100` denotes: the decimal number
behind its first character.  It serves to compare the order used by
`verifyConfig` with the numeric one. -/
def numericVersion (version : String) : Option Nat :=
  match version.toList with
  | [] => none
  | _ :: [] => none
  | _ :: cs => digitsValue cs 0

end D878UV

namespace OpenGD77BaseCodeplug

/-- A `Bit` coordinate of an `Offset` table: byte offset and bit number. -/
structure Bit where
  byte : Nat
  bit : Nat
  deriving DecidableEq, Repr

/-- The constant `ChannelElement::Offset::simplex()` (line 235). -/
def ChannelElement.Offset.simplex : Bit := { byte := 0x0026, bit := 3 }

/-- The constant `ChannelElement::Offset::useFixedLocation()` (line 236). -/
def ChannelElement.Offset.useFixedLocation : Bit := { byte := 0x0026, bit := 3 }

/-- The constant `ChannelElement::Offset::disablePowerSave()`. -/
def ChannelElement.Offset.disablePowerSave : Bit := { byte := 0x0026, bit := 5 }

/-- The constant `ChannelElement::Offset::disableBeep()`. -/
def ChannelElement.Offset.disableBeep : Bit := { byte := 0x0026, bit := 6 }

/-- The constant `ChannelElement::Offset::overrideDMRID()`. -/
def ChannelElement.Offset.overrideDMRID : Bit := { byte := 0x0026, bit := 7 }

/-- Modelled from the spec: `getBit` of `Codeplug::Element` (not part of the
sources), a single bit at a (byte offset, bit offset) coordinate "read as
boolean". -/
def getBit (data : List Nat) (b : Bit) : Bool := (data.getD b.byte 0).testBit b.bit

/-- Modelled from the spec: `setBit` of `Codeplug::Element` (not part of the
sources), a single bit "written without disturbing sibling bits in the same
byte": the bit is or-ed in, or masked out. -/
def setBit (data : List Nat) (b : Bit) (value : Bool) : List Nat :=
  data.set b.byte
    (if value then data.getD b.byte 0 ||| (1 <<< b.bit)
     else data.getD b.byte 0 ^^^ (data.getD b.byte 0 &&& (1 <<< b.bit)))

/-- Modelled from the spec: `ChannelElement::enableSimplex(enable)` (defined in
a file that is not part of the sources) writes the flag at
`Offset::simplex()`. -/
def ChannelElement.enableSimplex (data : List Nat) (enable : Bool) : List Nat :=
  setBit data ChannelElement.Offset.simplex enable

/-- Modelled from the spec: `ChannelElement::isSimplex()` reads the flag at
`Offset::simplex()`. -/
def ChannelElement.isSimplex (data : List Nat) : Bool :=
  getBit data ChannelElement.Offset.simplex

/-- Modelled from the spec: `ChannelElement::hasFixedPosition()` reads the flag
at `Offset::useFixedLocation()`. -/
def ChannelElement.hasFixedPosition (data : List Nat) : Bool :=
  getBit data ChannelElement.Offset.useFixedLocation

end OpenGD77BaseCodeplug

namespace GD77CallsignDB

/-- Modelled from the spec: `decode_dmr_id_bcd` (from `utils.hh`, not part of
the sources) reads back a BCD-encoded decimal integer of 4 bytes, most
significant digits first. -/
def decode_dmr_id_bcd (bytes : List Nat) : Nat :=
  bytes.foldl (fun acc b => acc * 100 + (b / 16) * 10 + b % 16) 0

/-- The method `userdb_entry_t::getNumber()` on the twelve bytes of an entry:
`decode_dmr_id_bcd` of the number field. -/
def getNumber (entry : List Nat) : Nat := decode_dmr_id_bcd (entry.take 4)

end GD77CallsignDB

/-! ### Sample data for the examples -/

namespace Config

/-- Members for the examples: `serialize` yields empty maps, `parse` creates
nothing, and `link` succeeds except for the radio-ID list when `radioLinkOk`
is `false`. -/
def sampleMembers (radioLinkOk : Bool) : Members where
  VERSION_STRING := "0.12.0"
  serialize := fun _ _ => .map []
  serializeTyt := fun _ => .map []
  parse := fun _ _ _ => (true, [])
  parseItem := fun _ _ => true
  link := fun k _ _ => match k with
    | .radioIDs => radioLinkOk
    | _ => true
  linkItem := fun _ _ => true

/-- A first radio ID. -/
def sampleIdA : Obj := { uid := 1, isRadioID := true }

/-- A second radio ID. -/
def sampleIdB : Obj := { uid := 2, isRadioID := true }

/-- A contact. -/
def sampleContact : Obj := { uid := 3, isRadioID := false }

/-- A configuration with the radio IDs `sampleIdA`, `sampleIdB` and the given
default index. -/
def sampleConfig (default : Option Nat) : Config where
  modified := false
  radioIDs := { ids := [sampleIdA, sampleIdB], default := default }
  contacts := [sampleContact]
  rxGroupLists := []
  channels := []
  zones := []
  scanlists := []
  gpsSystems := []
  roaming := []
  tytExtension := false

/-- A context that knows the three sample objects as `id1`, `id2`, `cont1`. -/
def sampleContext : Context where
  version := ""
  table := [("id1", sampleIdA), ("id2", sampleIdB), ("cont1", sampleContact)]

/-- A document whose settings name `defaultID` as the default radio ID. -/
def sampleDocument (defaultID : String) : Node :=
  .map [("settings", .map [("defaultID", .scalar defaultID)]), ("radioIDs", .seq []),
        ("contacts", .seq [])]

/-- A document without `version` and without `defaultID`. -/
def samplePlainDocument : Node :=
  .map [("settings", .map []), ("radioIDs", .seq []), ("contacts", .seq [])]

/-- Members for the examples: the radio-ID parser creates `sampleIdA` under the
id `id1` and succeeds, the contact parser fails, everything else succeeds. -/
def sampleFailingMembers : Members where
  VERSION_STRING := "0.12.0"
  serialize := fun _ _ => .map []
  serializeTyt := fun _ => .map []
  parse := fun k _ _ => match k with
    | .radioIDs => (true, [("id1", sampleIdA)])
    | .contacts => (false, [])
    | _ => (true, [])
  parseItem := fun _ _ => true
  link := fun _ _ _ => true
  linkItem := fun _ _ => true

/-- A configuration whose only element is one contact. -/
def sampleOneContact : Config where
  modified := false
  radioIDs := { ids := [], default := none }
  contacts := [sampleContact]
  rxGroupLists := []
  channels := []
  zones := []
  scanlists := []
  gpsSystems := []
  roaming := []
  tytExtension := false

end Config

/-! ## Part 3. Properties of `GD77CallsignDB::encode` -/

namespace GD77CallsignDB

theorem toQint64_of_lt (x : Nat) (h : x < 2 ^ 63) : toQint64 x = (x : Int) := by
  unfold toQint64
  have h1 : x % 2 ^ 64 = x := Nat.mod_eq_of_lt (by omega)
  rw [h1, if_pos h]

theorem entryCount_le_max (count : Int) (sel : Selection) :
    entryCount count sel ≤ 10920 := by
  unfold entryCount USERDB_MAX_ENTRIES
  split <;> simp only [Nat.cast_ofNat] <;> omega

theorem entryCount_le_count (count : Int) (sel : Selection) :
    entryCount count sel ≤ count := by
  unfold entryCount
  split <;> simp only [] <;> omega

theorem length_insertById (u : User) (l : List User) :
    (insertById u l).length = l.length + 1 := by
  induction l with
  | nil => rfl
  | cons v vs ih =>
    unfold insertById
    split
    · rfl
    · simp [ih]

theorem length_sortById (l : List User) : (sortById l).length = l.length := by
  induction l with
  | nil => rfl
  | cons u us ih => simp [sortById, length_insertById, ih]

/-- The loop of lines 110-112 runs over the whole vector `users`. -/
theorem encodedUsers_eq (db : List User) (sel : Selection) :
    encodedUsers db sel = sortById (db.take (entryCount db.length sel).toNat) := by
  unfold encodedUsers selectUsers
  apply List.take_of_length_le
  rw [length_sortById, List.length_take]
  exact Nat.min_le_left _ _

theorem length_encodedUsers (db : List User) (sel : Selection) :
    (encodedUsers db sel).length = (entryCount db.length sel).toNat := by
  rw [encodedUsers_eq, length_sortById, List.length_take]
  have := entryCount_le_count db.length sel
  omega

theorem length_storeBytes (buf : List Nat) (pos : Nat) (bytes : List Nat) :
    (storeBytes buf pos bytes).length = buf.length := by
  unfold storeBytes
  simp only [List.length_append, List.length_take, List.length_drop]
  omega

theorem storeBytes_append (a r bytes : List Nat) (h : bytes.length ≤ r.length) :
    storeBytes (a ++ r) a.length bytes = a ++ bytes ++ r.drop bytes.length := by
  unfold storeBytes
  rw [List.take_left, List.drop_append]
  congr 2
  apply List.take_of_length_le
  simp only [List.length_append]
  omega

theorem length_fromEntry (u : User) : (fromEntry u).length = 12 := by
  unfold fromEntry encode_dmr_id_bcd encode_ascii
  simp only [List.length_append, List.length_cons, List.length_nil, List.length_map,
    List.length_take, List.length_replicate, String.length, String.toList]
  omega

/-- A store through `data(offset)` lands in the element appended last when no
earlier element covers `offset`. -/
theorem store_append_last (pre : Image) (e : Element) (offset rel : Nat) (bytes : List Nat)
    (hpre : ∀ x ∈ pre, x.covers offset = false) (he : e.covers offset = true) :
    Image.store (pre ++ [e]) offset rel bytes =
      pre ++ [{ e with data := storeBytes e.data (offset - e.address + rel) bytes }] := by
  induction pre with
  | nil => simp [Image.store, he]
  | cons x xs ih =>
    have hx : x.covers offset = false := hpre x (List.mem_cons_self _ _)
    have hxs : ∀ y ∈ xs, y.covers offset = false :=
      fun y hy => hpre y (List.mem_cons_of_mem _ hy)
    simp [Image.store, hx, ih hxs]

/-- The entries written into a buffer: the buffer-level view of
`storeEntries`. -/
theorem storeEntries_append_last (pre : Image) (a r : List Nat) (k : Nat) (us : List User)
    (hpre : ∀ x ∈ pre, x.covers 12 = false) (ha : a.length = 12 + k * 12)
    (hr : us.length * 12 ≤ r.length) (hpos : 0 < r.length) :
    storeEntries (pre ++ [{ address := 0, data := a ++ r }]) k us =
      pre ++ [{ address := 0,
                data := a ++ us.flatMap fromEntry ++ r.drop (us.length * 12) }] := by
  induction us generalizing a r k with
  | nil => simp [storeEntries]
  | cons u us ih =>
    have hlen := length_fromEntry u
    have hcov : ({ address := 0, data := a ++ r } : Element).covers 12 = true := by
      simp [Element.covers]; omega
    simp only [List.length_cons] at hr
    unfold storeEntries
    simp only [OFFSET_USERDB, sizeofUserdb, sizeofEntry, Nat.zero_add]
    rw [store_append_last pre _ 12 (k * 12) _ hpre hcov]
    simp only [Nat.sub_zero]
    have hstore : storeBytes (a ++ r) (12 + k * 12) (fromEntry u)
        = (a ++ fromEntry u) ++ r.drop 12 := by
      rw [← ha, storeBytes_append a r (fromEntry u) (by omega), hlen]
    rw [hstore]
    by_cases hus : us = []
    · subst hus
      simp [storeEntries]
    · have hpos2 : 0 < us.length := List.length_pos.mpr hus
      rw [ih (a ++ fromEntry u) (r.drop 12) (k + 1)
        (by simp only [List.length_append, ha, hlen]; omega)
        (by simp only [List.length_drop]; omega)
        (by simp only [List.length_drop]; omega)]
      have harith : 12 + us.length * 12 = (us.length + 1) * 12 := by omega
      simp only [List.flatMap_cons, List.append_assoc, List.drop_drop, List.length_cons, harith]

theorem align_size_bounds (x : Nat) :
    32 ∣ align_size x 32 ∧ x ≤ align_size x 32 ∧ align_size x 32 < x + 32 := by
  unfold align_size
  split
  · rename_i h
    exact ⟨Nat.dvd_of_mod_eq_zero h, Nat.le_refl _, by omega⟩
  · rename_i h
    refine ⟨?_, by omega, by omega⟩
    apply Nat.dvd_of_mod_eq_zero
    omega

theorem allocSize_bounds (n : Int) (h1 : 1 ≤ n) (h2 : n ≤ 10920) :
    32 ∣ allocSize n ∧ 12 + n.toNat * 12 ≤ allocSize n
      ∧ allocSize n < 12 + n.toNat * 12 + 32 := by
  have hu : toU64 n = n.toNat := by
    unfold toU64
    rw [Int.emod_eq_of_lt (by omega) (by omega)]
  have hb := align_size_bounds (12 + n.toNat * 12)
  have hn : n.toNat ≤ 10920 := by omega
  unfold allocSize
  simp only [hu, sizeofUserdb, sizeofEntry, BLOCK_SIZE]
  rw [Nat.mod_eq_of_lt (show 12 + n.toNat * 12 < 2 ^ 64 by omega)]
  rw [Nat.mod_eq_of_lt (show align_size (12 + n.toNat * 12) 32 < 2 ^ 32 by omega)]
  exact hb

theorem setSizeValue_toUint (n : Int) (h1 : 1 ≤ n) (h2 : n ≤ 10920) :
    setSizeValue (toUint n) = n.toNat := by
  unfold setSizeValue toUint USERDB_MAX_ENTRIES
  rw [Int.emod_eq_of_lt (by omega) (by omega)]
  omega

/-- The image after an encode of at least one entry, when no element already
in the image covers the offsets `0` and `12` used for `data(...)`. -/
theorem encode_image (fill : Nat) (img : Image) (db : List User) (sel : Selection)
    (h0 : ∀ x ∈ img, x.covers 0 = false) (h12 : ∀ x ∈ img, x.covers 12 = false)
    (hn : 1 ≤ (encodedUsers db sel).length) :
    encode fill img db sel =
      (true, img ++ [Element.mk 0
        (magic ++ le32 (encodedUsers db sel).length
          ++ (encodedUsers db sel).flatMap fromEntry
          ++ List.replicate
              (allocSize (entryCount db.length sel) - 12 - (encodedUsers db sel).length * 12)
              fill)]) := by
  have hlen := length_encodedUsers db sel
  have hmax := entryCount_le_max db.length sel
  have hn1 : 1 ≤ entryCount db.length sel := by omega
  have hb := allocSize_bounds _ hn1 hmax
  have hne : entryCount db.length sel ≠ 0 := by omega
  unfold encode
  simp only [hne, if_false, OFFSET_USERDB, Image.addElement]
  rw [setSizeValue_toUint _ hn1 hmax, ← hlen]
  have hcov : ∀ d : List Nat, d.length = allocSize (entryCount db.length sel) →
      ({ address := 0, data := d } : Element).covers 0 = true := by
    intro d hd
    simp [Element.covers, hd]; omega
  rw [store_append_last img _ 0 0 magic h0 (hcov _ (by simp))]
  rw [store_append_last img _ 0 8 (le32 0) h0 (hcov _ (by simp [length_storeBytes]))]
  rw [store_append_last img _ 0 8 _ h0 (hcov _ (by simp [length_storeBytes]))]
  simp only [Nat.sub_zero, Nat.zero_add]
  -- the header, byte by byte
  obtain ⟨r, hr, hrl⟩ : ∃ r, List.replicate (allocSize (entryCount db.length sel)) fill
      = List.replicate 12 fill ++ r ∧
        r = List.replicate (allocSize (entryCount db.length sel) - 12) fill := by
    refine ⟨_, ?_, rfl⟩
    rw [← List.replicate_add]
    congr 1
    omega
  have hhdr : storeBytes (storeBytes (storeBytes
        (List.replicate (allocSize (entryCount db.length sel)) fill) 0 magic) 8 (le32 0)) 8
        (le32 (encodedUsers db sel).length)
      = (magic ++ le32 (encodedUsers db sel).length) ++ r := by
    rw [hr]
    simp [storeBytes, magic, le32, List.replicate]
  rw [hhdr]
  have hrlen : r.length = allocSize (entryCount db.length sel) - 12 := by
    rw [hrl, List.length_replicate]
  rw [storeEntries_append_last img _ r 0 _ h12 (by simp [magic, le32])
    (by rw [hrlen]; omega) (by rw [hrlen]; omega)]
  rw [hrl, List.drop_replicate]

/-- C4. After `encode` has written `n >= 1` entries into an image in which no
earlier element covers the offsets handed to `data`, the element at offset 0
consists of the 8 bytes `I D - V 0 0 1 0x00`, the count field holding `n` in
little-endian byte order (`n` is at most 10920, so `setSize` stores it
unclamped), then directly the `n` entries in the order written, then the
untouched rest of the block. -/
theorem encode_header_then_entries (fill : Nat) (img : Image) (db : List User)
    (sel : Selection)
    (h0 : ∀ x ∈ img, x.covers 0 = false) (h12 : ∀ x ∈ img, x.covers 12 = false)
    (hn : 1 ≤ (encodedUsers db sel).length) :
    encode fill img db sel =
      (true, img ++ [Element.mk 0
        ([0x49, 0x44, 0x2d, 0x56, 0x30, 0x30, 0x31, 0x00]
          ++ le32 (encodedUsers db sel).length
          ++ (encodedUsers db sel).flatMap fromEntry
          ++ List.replicate
              (allocSize (entryCount db.length sel) - 12 - (encodedUsers db sel).length * 12)
              fill)])
    ∧ (encodedUsers db sel).length ≤ 10920
    ∧ setSizeValue (encodedUsers db sel).length = (encodedUsers db sel).length := by
  have hlen := length_encodedUsers db sel
  have hmax := entryCount_le_max db.length sel
  refine ⟨encode_image fill img db sel h0 h12 hn, by omega, ?_⟩
  unfold setSizeValue USERDB_MAX_ENTRIES
  omega

/-- Witness for C4: one user written into an image that already holds an
element at address 4096. -/
theorem encode_header_then_entries_witness :
    ((∀ x ∈ [Element.mk 4096 [7]], x.covers 0 = false)
      ∧ (∀ x ∈ [Element.mk 4096 [7]], x.covers 12 = false)
      ∧ 1 ≤ (encodedUsers [User.mk 5 "A" ""] (Selection.mk false 0)).length)
    ∧ encode 255 [Element.mk 4096 [7]] [User.mk 5 "A" ""] (Selection.mk false 0) =
      (true, [Element.mk 4096 [7], Element.mk 0
        [0x49, 0x44, 0x2d, 0x56, 0x30, 0x30, 0x31, 0x00, 1, 0, 0, 0,
         0, 0, 0, 5, 0x41, 0, 0, 0, 0, 0, 0, 0,
         255, 255, 255, 255, 255, 255, 255, 255]]) :=
  ⟨⟨by decide, by decide, by decide⟩,
   ((encode_header_then_entries 255 [Element.mk 4096 [7]]
      [User.mk 5 "A" ""] (Selection.mk false 0)
      (by decide) (by decide) (by decide)).1).trans (by rfl)⟩

end GD77CallsignDB

/-! ## Part 4. Properties of `Config::link`, `Config::populate`, `Config::parse` -/

namespace Config

theorem linkStep_config (m : Members) (node : Node) (ctx : Context) (k : Key)
    (s : LinkResult) : (linkStep m node ctx k s).config = s.config := by
  unfold linkStep
  split <;> rfl

theorem linkSteps_config (m : Members) (node : Node) (ctx : Context) (ks : List Key)
    (s : LinkResult) : (linkSteps m node ctx ks s).config = s.config := by
  induction ks generalizing s with
  | nil => rfl
  | cons k ks ih =>
    unfold linkSteps
    simp only []
    split
    · rw [ih, linkStep_config]
    · exact linkStep_config m node ctx k s

/-- The radio-ID list after `link`, when the two leading member links succeed
and the default-ID resolution does not fail. -/
theorem link_radioIDs_of_resolved (m : Members) (cfg : Config) (node : Node) (ctx : Context)
    (l : RadioIDList)
    (hr : m.link .radioIDs (node.get "radioIDs") ctx = true)
    (hs : m.link .settings (node.get "settings") ctx = true)
    (hd : linkDefaultID cfg.radioIDs node ctx = some l) :
    (link m cfg node ctx).config.radioIDs = l := by
  unfold link
  simp only [hr, hs, hd, Bool.not_true, Bool.false_eq_true, if_false]
  split <;> simp [linkSteps_config]

/-- `link` fails when the default-ID resolution fails. -/
theorem link_fails_of_unresolved (m : Members) (cfg : Config) (node : Node) (ctx : Context)
    (hd : linkDefaultID cfg.radioIDs node ctx = none) :
    (link m cfg node ctx).ok = false := by
  unfold link
  by_cases hr : m.link .radioIDs (node.get "radioIDs") ctx = true
  · by_cases hs : m.link .settings (node.get "settings") ctx = true
    · simp [hr, hs, hd]
    · simp [hr, hs]
  · simp [hr]

theorem defaultIDOf_eq_none (node : Node)
    (h : (node.get "settings").bind (fun s => s.get "defaultID") = none) :
    defaultIDOf node = none := by
  unfold defaultIDOf
  cases hs : node.get "settings" with
  | none => rfl
  | some s =>
    rw [hs] at h
    simp only [Option.some_bind] at h
    simp only [h]

/-- C6. For every document that sets no `defaultID` under `settings`: if the
radio-ID linking and the settings linking succeed, `link` makes index 0 the
default radio ID when the radio-ID list is non-empty, and leaves the default
as it was when the list is empty. -/
theorem link_default_is_first (m : Members) (cfg : Config) (node : Node) (ctx : Context)
    (hno : (node.get "settings").bind (fun s => s.get "defaultID") = none)
    (hr : m.link .radioIDs (node.get "radioIDs") ctx = true)
    (hs : m.link .settings (node.get "settings") ctx = true) :
    (cfg.radioIDs.count ≠ 0 → (link m cfg node ctx).config.radioIDs.default = some 0)
    ∧ (cfg.radioIDs.count = 0 →
        (link m cfg node ctx).config.radioIDs.default = cfg.radioIDs.default)
    ∧ (link m cfg node ctx).config.radioIDs.ids = cfg.radioIDs.ids := by
  have hd := defaultIDOf_eq_none node hno
  by_cases hc : cfg.radioIDs.count = 0
  · have hl : linkDefaultID cfg.radioIDs node ctx = some cfg.radioIDs := by
      simp [linkDefaultID, hd, hc]
    rw [link_radioIDs_of_resolved m cfg node ctx _ hr hs hl]
    exact ⟨fun h => absurd hc h, fun _ => rfl, rfl⟩
  · have hl : linkDefaultID cfg.radioIDs node ctx = some (cfg.radioIDs.setDefaultId 0) := by
      simp [linkDefaultID, hd, hc]
    rw [link_radioIDs_of_resolved m cfg node ctx _ hr hs hl]
    refine ⟨fun _ => ?_, fun h => absurd h hc, rfl⟩
    have hpos : 0 < cfg.radioIDs.count := Nat.pos_of_ne_zero hc
    simp [RadioIDList.setDefaultId, hpos]

/-- Witness for C6: two radio IDs, default so far the second one, a document
without `defaultID`. -/
theorem link_default_is_first_witness :
    ((samplePlainDocument.get "settings").bind (fun s => s.get "defaultID") = none
      ∧ (sampleMembers true).link .radioIDs (samplePlainDocument.get "radioIDs") sampleContext
          = true
      ∧ (sampleMembers true).link .settings (samplePlainDocument.get "settings") sampleContext
          = true
      ∧ (sampleConfig (some 1)).radioIDs.count ≠ 0)
    ∧ (link (sampleMembers true) (sampleConfig (some 1)) samplePlainDocument
          sampleContext).config.radioIDs.default = some 0 :=
  ⟨⟨by rfl, by rfl, by rfl, by decide⟩,
   (link_default_is_first (sampleMembers true) (sampleConfig (some 1)) samplePlainDocument
      sampleContext (by rfl) (by rfl) (by rfl)).1 (by decide)⟩

/-- Counterexample to C7 as stated: the document names `id1`, which resolves to
a radio ID at index 0 of the list, but the radio-ID linking fails; `link`
returns failure and the default (so far index 1) is not set to index 0. -/
theorem link_defaultID_not_set_after_failed_radio_link :
    defaultIDOf (sampleDocument "id1") = some "id1"
    ∧ sampleContext.getObj "id1" = some sampleIdA
    ∧ sampleIdA.isRadioID = true
    ∧ (sampleConfig (some 1)).radioIDs.indexOf sampleIdA = 0
    ∧ (link (sampleMembers false) (sampleConfig (some 1)) (sampleDocument "id1")
          sampleContext).ok = false
    ∧ (link (sampleMembers false) (sampleConfig (some 1)) (sampleDocument "id1")
          sampleContext).config.radioIDs.default = some 1 := by
  refine ⟨by rfl, by rfl, by rfl, by decide, by rfl, by rfl⟩

/-- C7 (amended). For every document whose `settings.defaultID` is a scalar
id: if the id is not present in the context, or resolves to an object that is
not a radio ID, `link` returns failure; if the id resolves to a radio ID and
the radio-ID linking and the settings linking succeed, `link` hands that radio
ID's index in the radio-ID list to `setDefaultId`, so that a radio ID of the
list becomes the default under its index. -/
theorem link_defaultID_resolution (m : Members) (cfg : Config) (node : Node) (ctx : Context)
    (id : String) (hid : defaultIDOf node = some id) :
    (ctx.containsId id = false → (link m cfg node ctx).ok = false)
    ∧ (∀ d, ctx.getObj id = some d → d.isRadioID = false → (link m cfg node ctx).ok = false)
    ∧ (∀ d, ctx.getObj id = some d → d.isRadioID = true →
        m.link .radioIDs (node.get "radioIDs") ctx = true →
        m.link .settings (node.get "settings") ctx = true →
        (link m cfg node ctx).config.radioIDs
            = cfg.radioIDs.setDefaultId (cfg.radioIDs.indexOf d)
        ∧ (d ∈ cfg.radioIDs.ids →
            (link m cfg node ctx).config.radioIDs.default
              = some (cfg.radioIDs.ids.indexOf d))) := by
  refine ⟨fun hc => ?_, fun d hd hk => ?_, fun d hd hk hr hs => ?_⟩
  · apply link_fails_of_unresolved
    have hnone : ctx.getObj id = none := by
      simpa [Context.containsId] using hc
    simp [linkDefaultID, hid, hnone]
  · apply link_fails_of_unresolved
    simp [linkDefaultID, hid, hd, hk]
  · have hl : linkDefaultID cfg.radioIDs node ctx
        = some (cfg.radioIDs.setDefaultId (cfg.radioIDs.indexOf d)) := by
      simp [linkDefaultID, hid, hd, hk]
    rw [link_radioIDs_of_resolved m cfg node ctx _ hr hs hl]
    refine ⟨rfl, fun hmem => ?_⟩
    have hlt : cfg.radioIDs.ids.indexOf d < cfg.radioIDs.ids.length :=
      List.indexOf_lt_length.mpr hmem
    simp [RadioIDList.setDefaultId, RadioIDList.indexOf, RadioIDList.count, hmem, hlt]

/-- Witness for C7 (amended): `id2` resolves to the radio ID at index 1. -/
theorem link_defaultID_resolution_witness :
    defaultIDOf (sampleDocument "id2") = some "id2"
    ∧ (link (sampleMembers true) (sampleConfig none) (sampleDocument "id2")
          sampleContext).config.radioIDs.default = some 1 :=
  ⟨by rfl,
   ((link_defaultID_resolution (sampleMembers true) (sampleConfig none) (sampleDocument "id2")
      sampleContext "id2" (by rfl)).2.2 sampleIdB (by rfl) (by rfl) (by rfl) (by rfl)).2
      (by decide)⟩

theorem keys_assignKey (key : String) (v : Node) (kvs : List (String × Node)) :
    (assignKey key v kvs).map Prod.fst =
      if key ∈ kvs.map Prod.fst then kvs.map Prod.fst else kvs.map Prod.fst ++ [key] := by
  induction kvs with
  | nil => simp [assignKey]
  | cons p rest ih =>
    obtain ⟨k, w⟩ := p
    unfold assignKey
    by_cases hk : k = key
    · simp [hk]
    · have hk2 : ¬ key = k := fun h => hk h.symm
      simp only [hk, if_false, List.map_cons, ih, List.mem_cons, hk2, false_or]
      split <;> simp

theorem lookupKey_assignKey_same (key : String) (v : Node) (kvs : List (String × Node)) :
    lookupKey key (assignKey key v kvs) = some v := by
  induction kvs with
  | nil => simp [assignKey, lookupKey]
  | cons p rest ih =>
    obtain ⟨k, w⟩ := p
    unfold assignKey
    by_cases hk : k = key
    · simp [hk, lookupKey]
    · simp [hk, lookupKey, ih]

theorem lookupKey_assignKey_other (key other : String) (v : Node) (kvs : List (String × Node))
    (h : other ≠ key) :
    lookupKey key (assignKey other v kvs) = lookupKey key kvs := by
  induction kvs with
  | nil =>
    simp [assignKey, lookupKey, h]
  | cons p rest ih =>
    obtain ⟨k, w⟩ := p
    unfold assignKey
    by_cases hk : k = other
    · have hk2 : ¬ k = key := fun h2 => h (hk ▸ h2)
      simp [hk, lookupKey, h]
    · by_cases hk3 : k = key
      · subst hk3
        simp [hk, lookupKey]
      · simp [hk, lookupKey, hk3, ih]

/-- A nested assignment below an existing key of a map keeps the node a map
with the same keys, and stores the value. -/
theorem set2_map (kvs : List (String × Node)) (k1 k2 : String) (v : Node) (out : Node)
    (h : Node.set2 (.map kvs) k1 k2 v = some out) :
    ∃ inner, ((lookupKey k1 kvs).getD .null).set k2 v = some inner
      ∧ inner.get k2 = some v ∧ out = .map (assignKey k1 inner kvs) := by
  unfold Node.set2 at h
  simp only [Node.get] at h
  cases hi : ((lookupKey k1 kvs).getD .null).set k2 v with
  | none => simp [hi] at h
  | some inner =>
    rw [hi] at h
    have h2 : some (Node.map (assignKey k1 inner kvs)) = some out := h
    refine ⟨inner, rfl, ?_, (Option.some.inj h2).symm⟩
    cases hn : (lookupKey k1 kvs).getD .null with
    | null =>
      rw [hn] at hi
      simp only [Node.set, Option.some.injEq] at hi
      subst hi
      simp [Node.get, lookupKey]
    | scalar s =>
      rw [hn] at hi
      simp [Node.set] at hi
    | seq xs =>
      rw [hn] at hi
      simp only [Node.set, Option.some.injEq] at hi
      subst hi
      simp [Node.get, lookupKey_assignKey_same]
    | map es =>
      rw [hn] at hi
      simp only [Node.set, Option.some.injEq] at hi
      subst hi
      simp [Node.get, lookupKey_assignKey_same]

/-- What an assignment `node[key] = v` does to a map node. -/
theorem set_map_facts (n n1 : Node) (ks : List String) (key : String) (v : Node)
    (hm : n.IsMap = true) (hk : n.keys = ks) (h : n.set key v = some n1) :
    n1.IsMap = true ∧ n1.keys = (if key ∈ ks then ks else ks ++ [key])
      ∧ n1.get key = some v ∧ ∀ k, key ≠ k → n1.get k = n.get k := by
  cases n with
  | null => simp [Node.IsMap] at hm
  | scalar s => simp [Node.IsMap] at hm
  | seq xs => simp [Node.IsMap] at hm
  | map kvs =>
    simp only [Node.set, Option.some.injEq] at h
    subst h
    subst hk
    refine ⟨rfl, ?_, ?_, ?_⟩
    · simp only [Node.keys]
      exact keys_assignKey key v kvs
    · simp only [Node.get]
      exact lookupKey_assignKey_same key v kvs
    · intro k hne
      simp only [Node.get]
      exact lookupKey_assignKey_other k key v kvs hne

/-- A successful run through `if ((node[key] = v).IsNull()) return false;`. -/
theorem step_ok (node : Node) (key : String) (v : Node)
    (rest : Bool × Node → Option (Bool × Node)) (out : Node)
    (h : (assignChecked node key v).bind
          (fun p => if (!p.1) = true then some (false, p.2) else rest p) = some (true, out)) :
    ∃ node1, node.set key v = some node1 ∧ v.IsNull = false
      ∧ rest (true, node1) = some (true, out) := by
  unfold assignChecked at h
  cases hs : node.set key v with
  | none => simp [hs] at h
  | some node1 =>
    simp only [hs, Option.some_bind] at h
    cases hv : v.IsNull with
    | true => simp [hv] at h
    | false =>
      simp only [hv, Bool.not_false, Bool.not_true, Bool.false_eq_true, if_false] at h
      exact ⟨node1, rfl, rfl, h⟩

/-- A successful run through the same statement guarded by a count. -/
theorem stepOptional_ok (count : Nat) (node : Node) (key : String) (v : Node)
    (rest : Bool × Node → Option (Bool × Node)) (out : Node)
    (h : (assignOptional count node key v).bind
          (fun p => if (!p.1) = true then some (false, p.2) else rest p) = some (true, out)) :
    ∃ node1, (count ≠ 0 → node.set key v = some node1)
      ∧ (count = 0 → node1 = node)
      ∧ rest (true, node1) = some (true, out) := by
  unfold assignOptional at h
  by_cases hc : count = 0
  · simp only [hc, ne_eq, not_true_eq_false, if_false, Option.some_bind, Bool.not_true,
      Bool.false_eq_true] at h
    exact ⟨node, fun hne => absurd hc hne, fun _ => rfl, h⟩
  · simp only [ne_eq, hc, not_false_eq_true, if_true] at h
    obtain ⟨node1, h1, _, h3⟩ := step_ok node key v rest out h
    exact ⟨node1, fun _ => h1, fun h0 => absurd h0 hc, h3⟩

/-- The effect of an optional assignment on the keys of a map node. -/
theorem optional_facts (count : Nat) (n n1 : Node) (ks : List String) (key : String) (v : Node)
    (hm : n.IsMap = true) (hk : n.keys = ks) (hne : "settings" ≠ key)
    (h1 : count ≠ 0 → n.set key v = some n1) (h2 : count = 0 → n1 = n) :
    n1.IsMap = true
      ∧ n1.keys = (if count ≠ 0 then (if key ∈ ks then ks else ks ++ [key]) else ks)
      ∧ n1.get "settings" = n.get "settings" := by
  by_cases hc : count = 0
  · rw [h2 hc]
    simp [hc, hm, hk]
  · obtain ⟨a, b, _, d⟩ := set_map_facts n n1 ks key v hm hk (h1 hc)
    refine ⟨a, ?_, d "settings" hne.symm⟩
    simp [hc, b]

/-- The keys written by lines 143-176 of `populate`, behind `version` and
`settings`. -/
theorem populateLists_ok (m : Members) (cfg : Config) (ctx : Context) (n out : Node)
    (hm : n.IsMap = true) (hk : n.keys = ["version", "settings"])
    (h : populateLists m cfg n ctx = some (true, out)) :
    out.keys =
        ["version", "settings", "radioIDs", "contacts", "groupLists", "channels", "zones"]
          ++ (if cfg.scanlists.length ≠ 0 then ["scanLists"] else [])
          ++ (if cfg.gpsSystems.length ≠ 0 then ["positioning"] else [])
          ++ (if cfg.roaming.length ≠ 0 then ["roaming"] else [])
          ++ (if cfg.tytExtension = true then ["tyt"] else [])
      ∧ out.get "settings" = n.get "settings" := by
  unfold populateLists at h
  simp only [Option.bind_eq_bind, Option.pure_def, Option.some_bind] at h
  obtain ⟨n1, s1, _, h⟩ := step_ok _ _ _ _ _ h
  obtain ⟨n2, s2, _, h⟩ := step_ok _ _ _ _ _ h
  obtain ⟨n3, s3, _, h⟩ := step_ok _ _ _ _ _ h
  obtain ⟨n4, s4, _, h⟩ := step_ok _ _ _ _ _ h
  obtain ⟨n5, s5, _, h⟩ := step_ok _ _ _ _ _ h
  obtain ⟨n6, s6, z6, h⟩ := stepOptional_ok _ _ _ _ _ _ h
  obtain ⟨n7, s7, z7, h⟩ := stepOptional_ok _ _ _ _ _ _ h
  obtain ⟨n8, s8, z8, h⟩ := stepOptional_ok _ _ _ _ _ _ h
  simp only [] at h
  obtain ⟨m1, k1, _, g1⟩ := set_map_facts n n1 _ _ _ hm hk s1
  obtain ⟨m2, k2, _, g2⟩ := set_map_facts n1 n2 _ _ _ m1 k1 s2
  obtain ⟨m3, k3, _, g3⟩ := set_map_facts n2 n3 _ _ _ m2 k2 s3
  obtain ⟨m4, k4, _, g4⟩ := set_map_facts n3 n4 _ _ _ m3 k3 s4
  obtain ⟨m5, k5, _, g5⟩ := set_map_facts n4 n5 _ _ _ m4 k4 s5
  obtain ⟨m6, k6, g6⟩ := optional_facts _ n5 n6 _ _ _ m5 k5 (by decide) s6 z6
  obtain ⟨m7, k7, g7⟩ := optional_facts _ n6 n7 _ _ _ m6 k6 (by decide) s7 z7
  obtain ⟨m8, k8, g8⟩ := optional_facts _ n7 n8 _ _ _ m7 k7 (by decide) s8 z8
  have hset : n8.get "settings" = n.get "settings" := by
    rw [g8, g7, g6, g5 _ (by decide), g4 _ (by decide), g3 _ (by decide), g2 _ (by decide),
      g1 _ (by decide)]
  unfold populateItem at h
  by_cases ht : cfg.tytExtension = true
  · simp only [ht, if_true] at h
    unfold assignChecked at h
    cases hs : n8.set "tyt" (m.serializeTyt ctx) with
    | none => simp [hs] at h
    | some n9 =>
      simp only [hs, Option.some.injEq, Prod.mk.injEq] at h
      obtain ⟨m9, k9, _, g9⟩ := set_map_facts n8 n9 _ _ _ m8 k8 hs
      rw [← h.2, g9 _ (by decide), hset, k9]
      refine ⟨?_, rfl⟩
      by_cases c1 : cfg.scanlists.length = 0 <;> by_cases c2 : cfg.gpsSystems.length = 0 <;>
        by_cases c3 : cfg.roaming.length = 0 <;> simp [c1, c2, c3, ht]
  · rw [if_neg ht] at h
    simp only [Option.some.injEq, Prod.mk.injEq, true_and] at h
    rw [← h, hset, k8]
    refine ⟨?_, rfl⟩
    by_cases c1 : cfg.scanlists.length = 0 <;> by_cases c2 : cfg.gpsSystems.length = 0 <;>
      by_cases c3 : cfg.roaming.length = 0 <;> simp [c1, c2, c3, ht]

/-- A null node becomes a map with the first assignment, so `populate` treats
it like an empty map. -/
theorem populate_null (m : Members) (cfg : Config) (ctx : Context) :
    populate m cfg .null ctx = populate m cfg (.map []) ctx := rfl

/-- A successful `populate` on a fresh map: the keys of the result and the
node stored under `settings`. -/
theorem populate_ok (m : Members) (cfg : Config) (ctx : Context) (out : Node)
    (h : populate m cfg (.map []) ctx = some (true, out)) :
    out.keys =
        ["version", "settings", "radioIDs", "contacts", "groupLists", "channels", "zones"]
          ++ (if cfg.scanlists.length ≠ 0 then ["scanLists"] else [])
          ++ (if cfg.gpsSystems.length ≠ 0 then ["positioning"] else [])
          ++ (if cfg.roaming.length ≠ 0 then ["roaming"] else [])
          ++ (if cfg.tytExtension = true then ["tyt"] else [])
      ∧ ∃ st, out.get "settings" = some st
        ∧ (∀ d, cfg.radioIDs.defaultId = some d → ctx.containsObj d = true →
            st.get "defaultID" = some (.scalar (ctx.getId d)))
        ∧ (cfg.radioIDs.defaultId = none → st = m.serialize .settings ctx)
        ∧ (∀ d, cfg.radioIDs.defaultId = some d → ctx.containsObj d = false →
            st = m.serialize .settings ctx) := by
  unfold populate at h
  simp only [Option.bind_eq_bind, Option.pure_def, Option.some_bind, Node.set] at h
  obtain ⟨n2, s2, _, h⟩ := step_ok _ _ _ _ _ h
  simp only [Node.set, assignKey, Option.some.injEq] at s2
  simp only [show ("version" = "settings") = False by decide, if_false] at s2
  subst s2
  cases hd : populateDefaultID cfg
      (.map [("version", .scalar m.VERSION_STRING), ("settings", m.serialize .settings ctx)])
      ctx with
  | none => simp [hd] at h
  | some n3 =>
    simp only [hd, Option.some_bind] at h
    unfold populateDefaultID at hd
    cases hdef : cfg.radioIDs.defaultId with
    | none =>
      simp only [hdef, Option.some.injEq] at hd
      subst hd
      obtain ⟨hkeys, hget⟩ := populateLists_ok m cfg ctx
        (.map [("version", .scalar m.VERSION_STRING), ("settings", m.serialize .settings ctx)])
          out rfl rfl h
      refine ⟨hkeys, m.serialize .settings ctx, ?_, ?_, fun _ => rfl, ?_⟩
      · rw [hget]; rfl
      · intro d hd2; simp at hd2
      · intro d hd2; simp at hd2
    | some d =>
      simp only [hdef] at hd
      by_cases hc : ctx.containsObj d = true
      · simp only [hc, if_true] at hd
        obtain ⟨inner, hi1, hi2, hi3⟩ := set2_map _ _ _ _ _ hd
        simp only [assignKey, show ("version" = "settings") = False by decide, if_false,
          if_true] at hi3
        subst hi3
        obtain ⟨hkeys, hget⟩ := populateLists_ok m cfg ctx
          (.map [("version", .scalar m.VERSION_STRING), ("settings", inner)]) out rfl rfl h
        refine ⟨hkeys, inner, ?_, ?_, ?_, ?_⟩
        · rw [hget]; rfl
        · intro d2 hd2 _
          simp only [Option.some.injEq] at hd2
          subst hd2
          exact hi2
        · intro hd2; simp at hd2
        · intro d2 hd2 hc2
          simp only [Option.some.injEq] at hd2
          subst hd2
          rw [hc] at hc2
          simp at hc2
      · simp only [hc, Bool.false_eq_true, if_false, Option.some.injEq] at hd
        subst hd
        obtain ⟨hkeys, hget⟩ := populateLists_ok m cfg ctx
          (.map [("version", .scalar m.VERSION_STRING), ("settings", m.serialize .settings ctx)])
          out rfl rfl h
        refine ⟨hkeys, m.serialize .settings ctx, ?_, ?_, ?_, fun _ _ _ => rfl⟩
        · rw [hget]; rfl
        · intro d2 hd2 hc2
          simp only [Option.some.injEq] at hd2
          subst hd2
          exact absurd hc2 hc
        · intro hd2; simp at hd2

/-- C8. For every `Config` on which `populate` succeeds, handed a fresh node
(null or an empty map), the emitted map has the keys `version`, `settings`,
`radioIDs`, `contacts`, `groupLists`, `channels`, `zones` in exactly this
order, followed by `scanLists`, `positioning` and `roaming` in this order,
each of the three present exactly when the count of its collection is not
zero (and behind them the extension block, when an extension is set). -/
theorem populate_key_order (m : Members) (cfg : Config) (ctx : Context) (node0 out : Node)
    (hfresh : node0 = .null ∨ node0 = .map [])
    (h : populate m cfg node0 ctx = some (true, out)) :
    out.keys =
        ["version", "settings", "radioIDs", "contacts", "groupLists", "channels", "zones"]
          ++ (if cfg.scanlists.length ≠ 0 then ["scanLists"] else [])
          ++ (if cfg.gpsSystems.length ≠ 0 then ["positioning"] else [])
          ++ (if cfg.roaming.length ≠ 0 then ["roaming"] else [])
          ++ (if cfg.tytExtension = true then ["tyt"] else []) := by
  rcases hfresh with rfl | rfl
  · rw [populate_null] at h
    exact (populate_ok m cfg ctx out h).1
  · exact (populate_ok m cfg ctx out h).1

/-- Witness for C8: a configuration with one scan list and one roaming zone
but no positioning system. -/
theorem populate_key_order_witness :
    ((Node.null = Node.null ∨ Node.null = Node.map [])
      ∧ populate (sampleMembers true)
          { sampleConfig (some 0) with scanlists := [sampleContact], roaming := [sampleContact] }
          .null sampleContext
        = some (true, .map [("version", .scalar "0.12.0"),
            ("settings", .map [("defaultID", .scalar "id1")]), ("radioIDs", .map []),
            ("contacts", .map []), ("groupLists", .map []), ("channels", .map []),
            ("zones", .map []), ("scanLists", .map []), ("roaming", .map [])]))
    ∧ (Node.map [("version", .scalar "0.12.0"),
          ("settings", .map [("defaultID", .scalar "id1")]), ("radioIDs", .map []),
          ("contacts", .map []), ("groupLists", .map []), ("channels", .map []),
          ("zones", .map []), ("scanLists", .map []), ("roaming", .map [])]).keys
      = ["version", "settings", "radioIDs", "contacts", "groupLists", "channels", "zones",
         "scanLists", "roaming"] :=
  ⟨⟨Or.inl rfl, by rfl⟩,
   (populate_key_order (sampleMembers true)
      { sampleConfig (some 0) with scanlists := [sampleContact], roaming := [sampleContact] }
      sampleContext .null _ (Or.inl rfl) (by rfl)).trans (by rfl)⟩

/-- Counterexample to C9 as stated: a default radio ID exists, but the context
has assigned no id to it; `populate` succeeds and the `settings` node it emits
has no `defaultID` field. -/
theorem populate_no_defaultID_without_label :
    (sampleConfig (some 0)).radioIDs.defaultId = some sampleIdA
    ∧ populate (sampleMembers true) (sampleConfig (some 0)) .null
        { version := "", table := [] }
      = some (true, .map [("version", .scalar "0.12.0"), ("settings", .map []),
          ("radioIDs", .map []), ("contacts", .map []), ("groupLists", .map []),
          ("channels", .map []), ("zones", .map [])])
    ∧ ((Node.map [("version", .scalar "0.12.0"), ("settings", .map []),
          ("radioIDs", .map []), ("contacts", .map []), ("groupLists", .map []),
          ("channels", .map []), ("zones", .map [])]).get "settings").bind
        (fun s => s.get "defaultID") = none := by
  refine ⟨by rfl, by rfl, by rfl⟩

/-- C9 (amended). When `populate` succeeds, handed a fresh node (null or an
empty map): if a default radio ID exists and the context contains it, the node
emitted under `settings` has a `defaultID` field whose value is the textual id
the context assigned to that radio ID; if no default radio ID exists, or the
context does not contain it, no `defaultID` field is written, the `settings`
node being exactly what the settings serialised to. -/
theorem populate_defaultID (m : Members) (cfg : Config) (ctx : Context) (node0 out : Node)
    (hfresh : node0 = .null ∨ node0 = .map [])
    (h : populate m cfg node0 ctx = some (true, out)) :
    (∀ d, cfg.radioIDs.defaultId = some d → ctx.containsObj d = true →
        (out.get "settings").bind (fun s => s.get "defaultID")
          = some (.scalar (ctx.getId d)))
    ∧ (cfg.radioIDs.defaultId = none →
        out.get "settings" = some (m.serialize .settings ctx))
    ∧ (∀ d, cfg.radioIDs.defaultId = some d → ctx.containsObj d = false →
        out.get "settings" = some (m.serialize .settings ctx)) := by
  have h1 : populate m cfg (.map []) ctx = some (true, out) := by
    rcases hfresh with rfl | rfl
    · rw [← populate_null]
      exact h
    · exact h
  obtain ⟨_, st, hst, g1, g2, g3⟩ := populate_ok m cfg ctx out h1
  refine ⟨fun d hd hc => ?_, fun hd => ?_, fun d hd hc => ?_⟩
  · rw [hst]
    exact g1 d hd hc
  · rw [hst, g2 hd]
  · rw [hst, g3 d hd hc]

/-- Witness for C9 (amended): the default radio ID is labelled `id2`. -/
theorem populate_defaultID_witness :
    ((Node.null = Node.null ∨ Node.null = Node.map [])
      ∧ populate (sampleMembers true) (sampleConfig (some 1)) .null sampleContext
        = some (true, .map [("version", .scalar "0.12.0"),
            ("settings", .map [("defaultID", .scalar "id2")]), ("radioIDs", .map []),
            ("contacts", .map []), ("groupLists", .map []), ("channels", .map []),
            ("zones", .map [])]))
    ∧ ((Node.map [("version", .scalar "0.12.0"),
          ("settings", .map [("defaultID", .scalar "id2")]), ("radioIDs", .map []),
          ("contacts", .map []), ("groupLists", .map []), ("channels", .map []),
          ("zones", .map [])]).get "settings").bind (fun s => s.get "defaultID")
      = some (.scalar "id2") :=
  ⟨⟨Or.inl rfl, by rfl⟩,
   ((populate_defaultID (sampleMembers true) (sampleConfig (some 1)) sampleContext .null _
      (Or.inl rfl) (by rfl)).1 sampleIdB (by rfl) (by rfl)).trans (by rfl)⟩

theorem parseStep_version (m : Members) (node : Node) (k : Key) (s : ParseResult) :
    (parseStep m node k s).ctx.version = s.ctx.version := by
  unfold parseStep
  split <;> rfl

theorem parseSteps_version (m : Members) (node : Node) (ks : List Key) (s : ParseResult) :
    (parseSteps m node ks s).ctx.version = s.ctx.version := by
  induction ks generalizing s with
  | nil => rfl
  | cons k ks ih =>
    unfold parseSteps
    simp only []
    split
    · rw [ih, parseStep_version]
    · exact parseStep_version m node k s

theorem parseStep_ok (m : Members) (node : Node) (k : Key) (s : ParseResult)
    (hall : ∀ k n c, (m.parse k n c).1 = true) (hs : s.ok = true) :
    (parseStep m node k s).ok = true := by
  unfold parseStep
  split
  · exact hs
  · exact hall _ _ _

theorem parseSteps_ok (m : Members) (node : Node) (ks : List Key) (s : ParseResult)
    (hall : ∀ k n c, (m.parse k n c).1 = true) (hs : s.ok = true) :
    (parseSteps m node ks s).ok = true := by
  induction ks generalizing s with
  | nil => exact hs
  | cons k ks ih =>
    unfold parseSteps
    simp only [parseStep_ok m node k s hall hs, if_true]
    exact ih _ (parseStep_ok m node k s hall hs)

/-- The context version when `parse` returns, for a map document. -/
theorem parse_version (m : Members) (cfg : Config) (node : Node) (ctx : Context)
    (hmap : node.IsMap = true) :
    (parse m cfg node ctx).ctx.version = documentVersion node := by
  unfold parse
  simp only [hmap, Bool.not_true, Bool.false_eq_true, if_false]
  split
  · rw [parseSteps_version]
    rfl
  · simp only [parseSteps_version]
    rfl

/-- C10. For every document map without a `version` field, and likewise when
the `version` node is not a scalar, `parse` sets the context version to
`"0.9.0"` and goes on parsing: it succeeds whenever the members' parsers
succeed.  When a scalar `version` is present the context version is exactly
that string. -/
theorem parse_version_default (m : Members) (cfg : Config) (node : Node) (ctx : Context)
    (hmap : node.IsMap = true) :
    (node.get "version" = none → (parse m cfg node ctx).ctx.version = "0.9.0")
    ∧ (∀ v, node.get "version" = some v → v.IsScalar = false →
        (parse m cfg node ctx).ctx.version = "0.9.0")
    ∧ (∀ s, node.get "version" = some (.scalar s) →
        (parse m cfg node ctx).ctx.version = s)
    ∧ ((∀ k n c, (m.parse k n c).1 = true) → (∀ n c, m.parseItem n c = true) →
        (parse m cfg node ctx).ok = true) := by
  have hv := parse_version m cfg node ctx hmap
  refine ⟨fun h => ?_, fun v h hs => ?_, fun s h => ?_, fun hall hitem => ?_⟩
  · rw [hv]
    simp [documentVersion, h]
  · rw [hv]
    cases v with
    | scalar s => simp [Node.IsScalar] at hs
    | null => simp [documentVersion, h]
    | seq xs => simp [documentVersion, h]
    | map kvs => simp [documentVersion, h]
  · rw [hv]
    simp [documentVersion, h]
  · unfold parse
    simp only [hmap, Bool.not_true, Bool.false_eq_true, if_false]
    have hok := parseSteps_ok m node
      [.settings, .radioIDs, .contacts, .groupLists, .channels, .zones,
       .scanLists, .positioning, .roaming]
      { ok := true, config := cfg, ctx := ctx.setVersion (documentVersion node), calls := [] }
      hall rfl
    simp only [hok, Bool.not_true, Bool.false_eq_true, if_false]
    exact hitem _ _

/-- Witness for C10: a document map without `version`; the parsers of
`settings`, `radioIDs` and `contacts` are called and `parse` succeeds. -/
theorem parse_version_default_witness :
    (samplePlainDocument.IsMap = true ∧ samplePlainDocument.get "version" = none)
    ∧ (parse (sampleMembers true) (sampleConfig none) samplePlainDocument
        sampleContext).ctx.version = "0.9.0"
    ∧ (parse (sampleMembers true) (sampleConfig none) samplePlainDocument
        sampleContext).ok = true
    ∧ (parse (sampleMembers true) (sampleConfig none) samplePlainDocument
        sampleContext).calls = [.settings, .radioIDs, .contacts] :=
  ⟨⟨by rfl, by rfl⟩,
   (parse_version_default (sampleMembers true) (sampleConfig none) samplePlainDocument
      sampleContext (by rfl)).1 (by rfl),
   (parse_version_default (sampleMembers true) (sampleConfig none) samplePlainDocument
      sampleContext (by rfl)).2.2.2 (fun _ _ _ => rfl) (fun _ _ => rfl),
   by rfl⟩

end Config

/-! ## Part 5. Missing keys, `readYAML`, notifications and channel predicates -/

namespace Config

theorem parse_eq_parseOver (m : Members) (cfg : Config) (node : Node) (ctx : Context) :
    parse m cfg node ctx = parseOver m cfg node ctx parseKeys := rfl

theorem link_eq_linkOver (m : Members) (cfg : Config) (node : Node) (ctx : Context) :
    link m cfg node ctx = linkOver m cfg node ctx linkKeys := rfl

theorem parseStep_absent (m : Members) (node : Node) (k : Key) (s : ParseResult)
    (h : node.get k.name = none) : parseStep m node k s = s := by
  unfold parseStep
  rw [h]

theorem linkStep_absent (m : Members) (node : Node) (ctx : Context) (k : Key) (s : LinkResult)
    (h : node.get k.name = none) : linkStep m node ctx k s = s := by
  unfold linkStep
  rw [h]

/-- Leaving out the statement of a collection whose key is missing does not
change the run. -/
theorem parseSteps_erase (m : Members) (node : Node) (k : Key) (ks : List Key)
    (s : ParseResult) (h : node.get k.name = none) (hs : s.ok = true) :
    parseSteps m node ks s = parseSteps m node (ks.erase k) s := by
  induction ks generalizing s with
  | nil => rfl
  | cons k1 rest ih =>
    by_cases hk : k1 = k
    · subst hk
      rw [List.erase_cons_head]
      show (if (parseStep m node k1 s).ok = true then
          parseSteps m node rest (parseStep m node k1 s) else parseStep m node k1 s)
        = parseSteps m node rest s
      rw [parseStep_absent m node k1 s h, if_pos hs]
    · rw [List.erase_cons_tail (by simpa using hk)]
      unfold parseSteps
      simp only []
      split
      · rename_i hok
        exact ih _ hok
      · rfl

theorem linkSteps_erase (m : Members) (node : Node) (ctx : Context) (k : Key) (ks : List Key)
    (s : LinkResult) (h : node.get k.name = none) (hs : s.ok = true) :
    linkSteps m node ctx ks s = linkSteps m node ctx (ks.erase k) s := by
  induction ks generalizing s with
  | nil => rfl
  | cons k1 rest ih =>
    by_cases hk : k1 = k
    · subst hk
      rw [List.erase_cons_head]
      show (if (linkStep m node ctx k1 s).ok = true then
          linkSteps m node ctx rest (linkStep m node ctx k1 s) else linkStep m node ctx k1 s)
        = linkSteps m node ctx rest s
      rw [linkStep_absent m node ctx k1 s h, if_pos hs]
    · rw [List.erase_cons_tail (by simpa using hk)]
      unfold linkSteps
      simp only []
      split
      · rename_i hok
        exact ih _ hok
      · rfl

theorem parseStep_calls (m : Members) (node : Node) (k k1 : Key) (s : ParseResult)
    (h : node.get k.name = none) (hs : k ∉ s.calls) : k ∉ (parseStep m node k1 s).calls := by
  unfold parseStep
  split
  · exact hs
  · rename_i child hc
    simp only [List.mem_append, List.mem_singleton, not_or]
    refine ⟨hs, fun hk => ?_⟩
    subst hk
    rw [h] at hc
    simp at hc

theorem parseSteps_calls (m : Members) (node : Node) (k : Key) (ks : List Key)
    (s : ParseResult) (h : node.get k.name = none) (hs : k ∉ s.calls) :
    k ∉ (parseSteps m node ks s).calls := by
  induction ks generalizing s with
  | nil => exact hs
  | cons k1 rest ih =>
    unfold parseSteps
    simp only []
    split
    · exact ih _ (parseStep_calls m node k k1 s h hs)
    · exact parseStep_calls m node k k1 s h hs

theorem linkStep_calls (m : Members) (node : Node) (ctx : Context) (k k1 : Key)
    (s : LinkResult) (h : node.get k.name = none) (hs : k ∉ s.calls) :
    k ∉ (linkStep m node ctx k1 s).calls := by
  unfold linkStep
  split
  · exact hs
  · rename_i child hc
    simp only [List.mem_append, List.mem_singleton, not_or]
    refine ⟨hs, fun hk => ?_⟩
    subst hk
    rw [h] at hc
    simp at hc

theorem linkSteps_calls (m : Members) (node : Node) (ctx : Context) (k : Key) (ks : List Key)
    (s : LinkResult) (h : node.get k.name = none) (hs : k ∉ s.calls) :
    k ∉ (linkSteps m node ctx ks s).calls := by
  induction ks generalizing s with
  | nil => exact hs
  | cons k1 rest ih =>
    unfold linkSteps
    simp only []
    split
    · exact ih _ (linkStep_calls m node ctx k k1 s h hs)
    · exact linkStep_calls m node ctx k k1 s h hs

theorem collection_adopt_other (cfg : Config) (k k1 : Key) (objs : List Obj) (h : k1 ≠ k) :
    collection (adopt cfg k1 objs) k = collection cfg k := by
  cases k1 <;> cases k <;> first | rfl | exact absurd rfl h

theorem parseStep_collection (m : Members) (node : Node) (k k1 : Key) (s : ParseResult)
    (h : node.get k.name = none) :
    collection (parseStep m node k1 s).config k = collection s.config k := by
  unfold parseStep
  split
  · rfl
  · rename_i child hc
    apply collection_adopt_other
    intro hk
    subst hk
    rw [h] at hc
    simp at hc

theorem parseSteps_collection (m : Members) (node : Node) (k : Key) (ks : List Key)
    (s : ParseResult) (h : node.get k.name = none) :
    collection (parseSteps m node ks s).config k = collection s.config k := by
  induction ks generalizing s with
  | nil => rfl
  | cons k1 rest ih =>
    unfold parseSteps
    simp only []
    split
    · rw [ih, parseStep_collection m node k k1 s h]
    · exact parseStep_collection m node k k1 s h

/-- The calls and the configuration of `parse` are those of its run of
statements. -/
theorem parse_calls_config (m : Members) (cfg : Config) (node : Node) (ctx : Context)
    (hmap : node.IsMap = true) :
    (parse m cfg node ctx).calls
        = (parseSteps m node parseKeys
            { ok := true, config := cfg, ctx := ctx.setVersion (documentVersion node),
              calls := [] }).calls
      ∧ (parse m cfg node ctx).config
        = (parseSteps m node parseKeys
            { ok := true, config := cfg, ctx := ctx.setVersion (documentVersion node),
              calls := [] }).config := by
  rw [parse_eq_parseOver]
  unfold parseOver
  simp only [hmap, Bool.not_true, Bool.false_eq_true, if_false]
  split <;> exact ⟨rfl, rfl⟩

/-- What `parse` does for a collection whose key is missing: the statement is
as good as left out, the parser is not called and the collection is not
touched. -/
theorem parse_skips_missing (m : Members) (cfg : Config) (node : Node) (ctx : Context)
    (k : Key) (h : node.get k.name = none) :
    parse m cfg node ctx = parseOver m cfg node ctx (parseKeys.erase k)
      ∧ k ∉ (parse m cfg node ctx).calls
      ∧ collection (parse m cfg node ctx).config k = collection cfg k := by
  by_cases hmap : node.IsMap = true
  · obtain ⟨hc, hg⟩ := parse_calls_config m cfg node ctx hmap
    refine ⟨?_, ?_, ?_⟩
    · have e := parseSteps_erase m node k parseKeys
        { ok := true, config := cfg, ctx := ctx.setVersion (documentVersion node), calls := [] }
        h rfl
      rw [parse_eq_parseOver]
      unfold parseOver
      simp only [e]
    · rw [hc]
      exact parseSteps_calls m node k _ _ h (by simp)
    · rw [hg]
      exact parseSteps_collection m node k _ _ h
  · have hp : ∀ ks, parseOver m cfg node ctx ks
        = { ok := false, config := cfg, ctx := ctx, calls := [] } := by
      intro ks
      unfold parseOver
      simp [hmap]
    rw [parse_eq_parseOver, hp, hp]
    exact ⟨rfl, by simp, rfl⟩

theorem linkDefaultID_ids (l l1 : RadioIDList) (node : Node) (ctx : Context)
    (h : linkDefaultID l node ctx = some l1) : l1.ids = l.ids := by
  unfold linkDefaultID at h
  split at h
  · split at h
    · split at h
      · simp only [Option.some.injEq] at h
        rw [← h]
        rfl
      · simp at h
    · simp at h
  · split at h
    · simp only [Option.some.injEq] at h
      rw [← h]
      rfl
    · simp only [Option.some.injEq] at h
      rw [h]

theorem link_collection (m : Members) (cfg : Config) (node : Node) (ctx : Context) (k : Key) :
    collection (link m cfg node ctx).config k = collection cfg k := by
  unfold link
  split
  · rfl
  · split
    · rfl
    · split
      · rfl
      · rename_i l hl
        have hids := linkDefaultID_ids _ _ _ _ hl
        have hc : collection { cfg with radioIDs := l } k = collection cfg k := by
          cases k <;> first | rfl | exact hids
        dsimp only
        split
        · rw [linkSteps_config]
          exact hc
        · simp only [linkSteps_config]
          exact hc

/-- The shape of a `link` that got past the default-ID resolution. -/
theorem linkOver_resolved (m : Members) (cfg : Config) (node : Node) (ctx : Context)
    (ks : List Key) (l : RadioIDList)
    (hr : m.link .radioIDs (node.get "radioIDs") ctx = true)
    (hs : m.link .settings (node.get "settings") ctx = true)
    (hd : linkDefaultID cfg.radioIDs node ctx = some l) :
    linkOver m cfg node ctx ks =
      (if !(linkSteps m node ctx ks
              { ok := true, config := { cfg with radioIDs := l },
                calls := [.radioIDs, .settings] }).ok
        then linkSteps m node ctx ks
              { ok := true, config := { cfg with radioIDs := l },
                calls := [.radioIDs, .settings] }
        else { linkSteps m node ctx ks
                { ok := true, config := { cfg with radioIDs := l },
                  calls := [.radioIDs, .settings] } with ok := m.linkItem node ctx }) := by
  unfold linkOver
  simp only [hr, hs, hd, Bool.not_true, Bool.false_eq_true, if_false]

/-- The shape of a `link` that stops before the statements of lines 426-439:
it does not depend on them. -/
theorem linkOver_stopped (m : Members) (cfg : Config) (node : Node) (ctx : Context)
    (hstop : m.link .radioIDs (node.get "radioIDs") ctx = false
      ∨ m.link .settings (node.get "settings") ctx = false
      ∨ linkDefaultID cfg.radioIDs node ctx = none) (ks : List Key) :
    linkOver m cfg node ctx ks = linkOver m cfg node ctx []
      ∧ (linkOver m cfg node ctx ks).calls = [Key.radioIDs]
        ∨ linkOver m cfg node ctx ks = linkOver m cfg node ctx []
          ∧ (linkOver m cfg node ctx ks).calls = [Key.radioIDs, Key.settings] := by
  unfold linkOver
  by_cases hr : m.link .radioIDs (node.get "radioIDs") ctx = true
  · by_cases hs : m.link .settings (node.get "settings") ctx = true
    · rcases hstop with h | h | h
      · rw [hr] at h; simp at h
      · rw [hs] at h; simp at h
      · simp [hr, hs, h]
    · simp [hr, hs]
  · simp [hr]

/-- What `link` does for a collection of lines 426-439 whose key is missing. -/
theorem link_skips_missing (m : Members) (cfg : Config) (node : Node) (ctx : Context)
    (k : Key) (h : node.get k.name = none) (hk : k ≠ .radioIDs ∧ k ≠ .settings) :
    link m cfg node ctx = linkOver m cfg node ctx (linkKeys.erase k)
      ∧ k ∉ (link m cfg node ctx).calls := by
  rw [link_eq_linkOver]
  by_cases hr : m.link .radioIDs (node.get "radioIDs") ctx = true
  · by_cases hs : m.link .settings (node.get "settings") ctx = true
    · cases hd : linkDefaultID cfg.radioIDs node ctx with
      | none =>
        rcases linkOver_stopped m cfg node ctx (Or.inr (Or.inr hd)) linkKeys
          with ⟨a, b⟩ | ⟨a, b⟩
        · rw [b, a]
          rcases linkOver_stopped m cfg node ctx (Or.inr (Or.inr hd)) (linkKeys.erase k)
            with ⟨c, _⟩ | ⟨c, _⟩ <;> exact ⟨c.symm, by simp [hk.1]⟩
        · rw [b, a]
          rcases linkOver_stopped m cfg node ctx (Or.inr (Or.inr hd)) (linkKeys.erase k)
            with ⟨c, _⟩ | ⟨c, _⟩ <;> exact ⟨c.symm, by simp [hk.1, hk.2]⟩
      | some l =>
        rw [linkOver_resolved m cfg node ctx linkKeys l hr hs hd,
          linkOver_resolved m cfg node ctx (linkKeys.erase k) l hr hs hd,
          linkSteps_erase m node ctx k linkKeys _ h rfl]
        refine ⟨rfl, ?_⟩
        have hc := linkSteps_calls m node ctx k (linkKeys.erase k)
          { ok := true, config := { cfg with radioIDs := l }, calls := [.radioIDs, .settings] }
          h (by simp [hk.1, hk.2])
        split
        · exact hc
        · exact hc
    · have hs2 : m.link .settings (node.get "settings") ctx = false := by simpa using hs
      rcases linkOver_stopped m cfg node ctx (Or.inr (Or.inl hs2)) linkKeys
        with ⟨a, b⟩ | ⟨a, b⟩
      · rw [b, a]
        rcases linkOver_stopped m cfg node ctx (Or.inr (Or.inl hs2)) (linkKeys.erase k)
          with ⟨c, _⟩ | ⟨c, _⟩ <;> exact ⟨c.symm, by simp [hk.1]⟩
      · rw [b, a]
        rcases linkOver_stopped m cfg node ctx (Or.inr (Or.inl hs2)) (linkKeys.erase k)
          with ⟨c, _⟩ | ⟨c, _⟩ <;> exact ⟨c.symm, by simp [hk.1, hk.2]⟩
  · have hr2 : m.link .radioIDs (node.get "radioIDs") ctx = false := by simpa using hr
    rcases linkOver_stopped m cfg node ctx (Or.inl hr2) linkKeys with ⟨a, b⟩ | ⟨a, b⟩
    · rw [b, a]
      rcases linkOver_stopped m cfg node ctx (Or.inl hr2) (linkKeys.erase k)
        with ⟨c, _⟩ | ⟨c, _⟩ <;> exact ⟨c.symm, by simp [hk.1]⟩
    · rw [b, a]
      rcases linkOver_stopped m cfg node ctx (Or.inl hr2) (linkKeys.erase k)
        with ⟨c, _⟩ | ⟨c, _⟩ <;> exact ⟨c.symm, by simp [hk.1, hk.2]⟩

/-- Counterexample to C11 as stated: a document map without `groupLists`,
`channels` and `zones`, on which `parse` succeeds. -/
theorem parse_succeeds_without_required_keys :
    samplePlainDocument.IsMap = true
    ∧ samplePlainDocument.get "groupLists" = none
    ∧ samplePlainDocument.get "channels" = none
    ∧ samplePlainDocument.get "zones" = none
    ∧ (parse (sampleMembers true) (sampleConfig none) samplePlainDocument sampleContext).ok
        = true := by
  refine ⟨by rfl, by rfl, by rfl, by rfl, by rfl⟩

/-- C11 (amended). For every document map that lacks one of the top-level keys
`radioIDs`, `contacts`, `groupLists`, `channels` or `zones`, `parse` does not
fail because of the missing key: the parser of that collection is not called,
the result is that of the remaining steps (success whenever the members'
parsers succeed), and the collection is left as it was. -/
theorem parse_tolerates_missing_required_key (m : Members) (cfg : Config) (node : Node)
    (ctx : Context) (k : Key)
    (hk : k = .radioIDs ∨ k = .contacts ∨ k = .groupLists ∨ k = .channels ∨ k = .zones)
    (hmissing : node.get k.name = none) :
    parse m cfg node ctx = parseOver m cfg node ctx (parseKeys.erase k)
    ∧ k ∉ (parse m cfg node ctx).calls
    ∧ collection (parse m cfg node ctx).config k = collection cfg k
    ∧ (node.IsMap = true → (∀ k n c, (m.parse k n c).1 = true) →
        (∀ n c, m.parseItem n c = true) → (parse m cfg node ctx).ok = true) := by
  have _ := hk
  obtain ⟨h1, h2, h3⟩ := parse_skips_missing m cfg node ctx k hmissing
  refine ⟨h1, h2, h3, fun hmap hall hitem => ?_⟩
  unfold parse
  simp only [hmap, Bool.not_true, Bool.false_eq_true, if_false]
  have hok := parseSteps_ok m node
    [.settings, .radioIDs, .contacts, .groupLists, .channels, .zones,
     .scanLists, .positioning, .roaming]
    { ok := true, config := cfg, ctx := ctx.setVersion (documentVersion node), calls := [] }
    hall rfl
  simp only [hok, Bool.not_true, Bool.false_eq_true, if_false]
  exact hitem _ _

/-- Witness for C11 (amended): the sample document has no `zones`. -/
theorem parse_tolerates_missing_required_key_witness :
    ((Key.zones = .radioIDs ∨ Key.zones = .contacts ∨ Key.zones = .groupLists
        ∨ Key.zones = .channels ∨ Key.zones = .zones)
      ∧ samplePlainDocument.get Key.zones.name = none)
    ∧ Key.zones ∉ (parse (sampleMembers true) (sampleConfig none) samplePlainDocument
        sampleContext).calls
    ∧ (parse (sampleMembers true) (sampleConfig none) samplePlainDocument
        sampleContext).ok = true :=
  ⟨⟨by decide, by rfl⟩,
   (parse_tolerates_missing_required_key (sampleMembers true) (sampleConfig none)
      samplePlainDocument sampleContext .zones (by decide) (by rfl)).2.1,
   (parse_tolerates_missing_required_key (sampleMembers true) (sampleConfig none)
      samplePlainDocument sampleContext .zones (by decide) (by rfl)).2.2.2
      (by rfl) (fun _ _ _ => rfl) (fun _ _ => rfl)⟩

/-- C12. For every document lacking one of the optional top-level keys
`scanLists`, `positioning` or `roaming`, `parse` and `link` do not call the
parser and the linker of that collection and do not fail because of the
missing key: each returns what its remaining steps return, and the collection
is left as it was, so that it stays empty. -/
theorem optional_key_skipped (m : Members) (cfg : Config) (node : Node) (ctx : Context)
    (k : Key) (hk : k = .scanLists ∨ k = .positioning ∨ k = .roaming)
    (hmissing : node.get k.name = none) :
    (parse m cfg node ctx = parseOver m cfg node ctx (parseKeys.erase k)
      ∧ k ∉ (parse m cfg node ctx).calls
      ∧ collection (parse m cfg node ctx).config k = collection cfg k)
    ∧ (link m cfg node ctx = linkOver m cfg node ctx (linkKeys.erase k)
      ∧ k ∉ (link m cfg node ctx).calls
      ∧ collection (link m cfg node ctx).config k = collection cfg k)
    ∧ (collection cfg k = [] →
        collection (parse m cfg node ctx).config k = []
        ∧ collection (link m cfg node ctx).config k = []) := by
  have hne : k ≠ .radioIDs ∧ k ≠ .settings := by
    rcases hk with rfl | rfl | rfl <;> exact ⟨by decide, by decide⟩
  obtain ⟨p1, p2, p3⟩ := parse_skips_missing m cfg node ctx k hmissing
  obtain ⟨l1, l2⟩ := link_skips_missing m cfg node ctx k hmissing hne
  have l3 := link_collection m cfg node ctx k
  refine ⟨⟨p1, p2, p3⟩, ⟨l1, l2, l3⟩, fun he => ⟨?_, ?_⟩⟩
  · rw [p3, he]
  · rw [l3, he]

/-- Witness for C12: the sample document has no `roaming`, and the sample
configuration has no roaming zone. -/
theorem optional_key_skipped_witness :
    ((Key.roaming = .scanLists ∨ Key.roaming = .positioning ∨ Key.roaming = .roaming)
      ∧ samplePlainDocument.get Key.roaming.name = none
      ∧ collection (sampleConfig none) .roaming = [])
    ∧ Key.roaming ∉ (parse (sampleMembers true) (sampleConfig none) samplePlainDocument
        sampleContext).calls
    ∧ Key.roaming ∉ (link (sampleMembers true) (sampleConfig none) samplePlainDocument
        sampleContext).calls
    ∧ collection (parse (sampleMembers true) (sampleConfig none) samplePlainDocument
        sampleContext).config .roaming = []
    ∧ collection (link (sampleMembers true) (sampleConfig none) samplePlainDocument
        sampleContext).config .roaming = [] :=
  ⟨⟨by decide, by rfl, by rfl⟩,
   (optional_key_skipped (sampleMembers true) (sampleConfig none) samplePlainDocument
      sampleContext .roaming (by decide) (by rfl)).1.2.1,
   (optional_key_skipped (sampleMembers true) (sampleConfig none) samplePlainDocument
      sampleContext .roaming (by decide) (by rfl)).2.1.2.1,
   ((optional_key_skipped (sampleMembers true) (sampleConfig none) samplePlainDocument
      sampleContext .roaming (by decide) (by rfl)).2.2 (by rfl)).1,
   ((optional_key_skipped (sampleMembers true) (sampleConfig none) samplePlainDocument
      sampleContext .roaming (by decide) (by rfl)).2.2 (by rfl)).2⟩

/-- A signal of a collection, or the `modified` signal of the settings, runs
the slot exactly once. -/
theorem emit_connected (r : Root) (k : Key) (sig : Signal)
    (h : (k ≠ .settings ∧ sig ≠ .modified) ∨ (k = .settings ∧ sig = .modified)) :
    emit r k sig = onConfigModified r := by
  rcases h with ⟨hk, hs⟩ | ⟨hk, hs⟩
  · cases k <;> cases sig <;> first | rfl | exact absurd rfl hk | exact absurd rfl hs
  · subst hk
    subst hs
    rfl

/-- No other signal runs the slot. -/
theorem emit_unconnected (r : Root) (k : Key) (sig : Signal)
    (h : (k = .settings ∧ sig ≠ .modified) ∨ (k ≠ .settings ∧ sig = .modified)) :
    emit r k sig = r := by
  rcases h with ⟨hk, hs⟩ | ⟨hk, hs⟩
  · subst hk
    cases sig <;> first | rfl | exact absurd rfl hs
  · subst hs
    cases k <;> first | rfl | exact absurd rfl hk

theorem emit_keeps_modified (r : Root) (k : Key) (sig : Signal)
    (h : r.config.modified = true) : (emit r k sig).config.modified = true := by
  by_cases hk : k = .settings
  · by_cases hs : sig = .modified
    · rw [emit_connected r k sig (Or.inr ⟨hk, hs⟩)]
      rfl
    · rw [emit_unconnected r k sig (Or.inl ⟨hk, hs⟩)]
      exact h
  · by_cases hs : sig = .modified
    · rw [emit_unconnected r k sig (Or.inr ⟨hk, hs⟩)]
      exact h
    · rw [emit_connected r k sig (Or.inl ⟨hk, hs⟩)]
      rfl

theorem emitMany_keeps_modified (r : Root) (k : Key) (sig : Signal) (n : Nat)
    (h : r.config.modified = true) : (emitMany r k sig n).config.modified = true := by
  induction n generalizing r with
  | zero => exact h
  | succ n ih => exact ih _ (emit_keeps_modified r k sig h)

theorem emptied_modified (cfg : Config) (k : Key) :
    (emptied cfg k).modified = cfg.modified := by
  cases k <;> rfl

theorem clearMember_keeps_modified (cs : ClearSignals) (r : Root) (k : Key)
    (h : r.config.modified = true) : (clearMember cs r k).config.modified = true := by
  unfold clearMember
  apply emitMany_keeps_modified
  rw [emptied_modified]
  exact h

theorem clear_keeps_modified (cs : ClearSignals) (r : Root)
    (h : r.config.modified = true) : (clear cs r).config.modified = true := by
  unfold clear
  dsimp only
  repeat apply clearMember_keeps_modified
  apply emitMany_keeps_modified
  exact h

theorem adopt_modified (cfg : Config) (k : Key) (objs : List Obj) :
    (adopt cfg k objs).modified = cfg.modified := by
  cases k <;> rfl

theorem parseStep_modified (m : Members) (node : Node) (k : Key) (s : ParseResult) :
    (parseStep m node k s).config.modified = s.config.modified := by
  unfold parseStep
  split
  · rfl
  · exact adopt_modified _ _ _

theorem parseSteps_modified (m : Members) (node : Node) (ks : List Key) (s : ParseResult) :
    (parseSteps m node ks s).config.modified = s.config.modified := by
  induction ks generalizing s with
  | nil => rfl
  | cons k ks ih =>
    unfold parseSteps
    dsimp only
    split
    · rw [ih, parseStep_modified]
    · exact parseStep_modified m node k s

theorem parse_modified (m : Members) (cfg : Config) (node : Node) (ctx : Context) :
    (parse m cfg node ctx).config.modified = cfg.modified := by
  unfold parse
  split
  · rfl
  · dsimp only
    split
    · exact parseSteps_modified _ _ _ _
    · exact parseSteps_modified _ _ _ _

theorem link_modified (m : Members) (cfg : Config) (node : Node) (ctx : Context) :
    (link m cfg node ctx).config.modified = cfg.modified := by
  unfold link
  split
  · rfl
  · split
    · rfl
    · split
      · rfl
      · dsimp only
        split
        · rw [linkSteps_config]
        · show (linkSteps _ _ _ _ _).config.modified = _
          rw [linkSteps_config]

theorem readYAML_keeps_modified (cs : ClearSignals) (m : Members) (r : Root)
    (loaded : Option Node) (h : r.config.modified = true) :
    (readYAML cs m r loaded).2.config.modified = true := by
  have hc := clear_keeps_modified cs r h
  unfold readYAML
  cases loaded with
  | none => exact h
  | some node =>
    dsimp only
    split
    · show (parse _ _ _ _).config.modified = true
      rw [parse_modified]
      exact hc
    · split
      · show (link _ _ _ _).config.modified = true
        rw [link_modified, parse_modified]
        exact hc
      · show (link _ _ _ _).config.modified = true
        rw [link_modified, parse_modified]
        exact hc

/-- A `readCSV` that succeeds resets the flag. -/
theorem readCSV_success (read : Root → Bool × Root) (r : Root) (h : (read r).1 = true) :
    (readCSV read r).1 = true ∧ (readCSV read r).2.config.modified = false := by
  unfold readCSV
  simp [h]

/-- A `readCSV` that fails leaves the root as the reader left it. -/
theorem readCSV_failure (read : Root → Bool × Root) (r : Root) (h : (read r).1 = false) :
    readCSV read r = (false, (read r).2) := by
  unfold readCSV
  simp [h]

theorem step_keeps_modified (r : Root) (op : Op) (h : r.config.modified = true)
    (hop : keepsFlag r op = true) : (step r op).config.modified = true := by
  cases op with
  | signal k sig => exact emit_keeps_modified r k sig h
  | setModified b =>
    cases b with
    | true => rfl
    | false => simp [keepsFlag] at hop
  | clear cs => exact clear_keeps_modified cs r h
  | readCSV read =>
    simp only [keepsFlag, Bool.and_eq_true, Bool.not_eq_true'] at hop
    show (readCSV read r).2.config.modified = true
    rw [readCSV_failure read r hop.1]
    exact hop.2
  | readCSVFile opened read =>
    cases opened with
    | false => exact h
    | true =>
      simp only [keepsFlag, Bool.not_true, Bool.false_or, Bool.and_eq_true,
        Bool.not_eq_true'] at hop
      show (readCSV read r).2.config.modified = true
      rw [readCSV_failure read r hop.1]
      exact hop.2
  | readYAML cs m loaded => exact readYAML_keeps_modified cs m r loaded h

theorem run_keeps_modified (r : Root) (ops : List Op) (h : r.config.modified = true)
    (hops : noReset r ops = true) : (run r ops).config.modified = true := by
  induction ops generalizing r with
  | nil => exact h
  | cons op rest ih =>
    simp only [noReset, Bool.and_eq_true] at hops
    unfold run
    exact ih _ (step_keeps_modified r op h hops.1) hops.2

/-- Counterexample to C14 as stated: an element is added to the channel list,
which sets the flag; a `readCSV` that succeeds follows.  No
`setModified(false)` is called, and the flag is reset. -/
theorem readCSV_resets_modified :
    isModified (emit { config := sampleOneContact, notifications := 0 } .channels
        .elementAdded) = true
    ∧ (∀ op ∈ [Op.readCSV (fun r => (true, r))], op ≠ Op.setModified false)
    ∧ (readCSV (fun r => (true, r))
        (emit { config := sampleOneContact, notifications := 0 } .channels .elementAdded)).1
        = true
    ∧ isModified (run (emit { config := sampleOneContact, notifications := 0 } .channels
          .elementAdded) [.readCSV (fun r => (true, r))]) = false
    ∧ ¬ (∀ ops : List Op, (∀ op ∈ ops, op ≠ Op.setModified false) →
          isModified (run (emit { config := sampleOneContact, notifications := 0 } .channels
            .elementAdded) ops) = true) := by
  have hne : ∀ op ∈ [Op.readCSV (fun r => (true, r))], op ≠ Op.setModified false := by
    intro op hop
    simp only [List.mem_singleton] at hop
    subst hop
    intro hc
    cases hc
  refine ⟨by rfl, hne, by rfl, by rfl, fun hall => ?_⟩
  have := hall [.readCSV (fun r => (true, r))] hne
  exact absurd this (by decide)

/-- C14 (amended). For each of the eight owned collections and each of its
`elementAdded`, `elementRemoved` and `elementModified` signals, and for the
`modified` signal of the settings, the root reacts by setting its modified
flag and raising exactly one `modified(root)` notification; the flag then
stays set under every further signal, `clear()`, `setModified(true)`,
`readYAML` and failing `readCSV`, until `setModified(false)` is called or a
`readCSV` succeeds, each of which resets it. -/
theorem member_signal_modified_until_reset (r : Root) (k : Key) (sig : Signal)
    (h : (k ≠ .settings ∧ (sig = .elementAdded ∨ sig = .elementRemoved
            ∨ sig = .elementModified))
          ∨ (k = .settings ∧ sig = .modified)) :
    emit r k sig
        = { config := { r.config with modified := true },
            notifications := r.notifications + 1 }
    ∧ isModified (emit r k sig) = true
    ∧ (∀ ops : List Op, noReset (emit r k sig) ops = true →
        isModified (run (emit r k sig) ops) = true)
    ∧ (∀ r1 : Root, isModified (setModified r1 false) = false)
    ∧ (∀ (r1 : Root) (read : Root → Bool × Root), (read r1).1 = true →
        (readCSV read r1).1 = true ∧ isModified (readCSV read r1).2 = false
        ∧ isModified (readCSVFile true read r1).2 = false) := by
  have hc : emit r k sig = onConfigModified r := by
    apply emit_connected
    rcases h with ⟨hk, hs⟩ | h
    · refine Or.inl ⟨hk, ?_⟩
      rcases hs with rfl | rfl | rfl <;> decide
    · exact Or.inr h
  refine ⟨hc, ?_, fun ops hops => ?_, fun _ => rfl, fun r1 read hr => ?_⟩
  · rw [hc]
    rfl
  · apply run_keeps_modified _ _ _ hops
    rw [hc]
    rfl
  · exact ⟨(readCSV_success read r1 hr).1, (readCSV_success read r1 hr).2,
      (readCSV_success read r1 hr).2⟩

/-- Witness for C14: an element is added to the channel list of an unmodified
configuration; further signals arrive, the tree is cleared, a CSV read fails
and a YAML file cannot be loaded, and the flag is still set; a CSV read that
succeeds resets it. -/
theorem member_signal_modified_until_reset_witness :
    ((Key.channels ≠ .settings ∧ (Signal.elementAdded = .elementAdded
          ∨ Signal.elementAdded = .elementRemoved ∨ Signal.elementAdded = .elementModified))
        ∨ (Key.channels = .settings ∧ Signal.elementAdded = .modified))
    ∧ noReset (emit { config := sampleOneContact, notifications := 0 } .channels .elementAdded)
        [.signal .zones .elementRemoved, .setModified true, .clear removalSignals,
         .readCSV (fun r => (false, r)), .readYAML removalSignals (sampleMembers true) none]
        = true
    ∧ (emit { config := sampleOneContact, notifications := 0 } .channels .elementAdded)
        = { config := { sampleOneContact with modified := true }, notifications := 1 }
    ∧ isModified (run (emit { config := sampleOneContact, notifications := 0 } .channels
          .elementAdded)
        [.signal .zones .elementRemoved, .setModified true, .clear removalSignals,
         .readCSV (fun r => (false, r)), .readYAML removalSignals (sampleMembers true) none])
        = true
    ∧ isModified (readCSV (fun r => (true, r))
        (emit { config := sampleOneContact, notifications := 0 } .channels .elementAdded)).2
        = false :=
  ⟨by decide, by rfl,
   (member_signal_modified_until_reset { config := sampleOneContact, notifications := 0 }
      .channels .elementAdded (by decide)).1,
   (member_signal_modified_until_reset { config := sampleOneContact, notifications := 0 }
      .channels .elementAdded (by decide)).2.2.1
      [.signal .zones .elementRemoved, .setModified true, .clear removalSignals,
       .readCSV (fun r => (false, r)), .readYAML removalSignals (sampleMembers true) none]
      (by rfl),
   ((member_signal_modified_until_reset { config := sampleOneContact, notifications := 0 }
      .channels .elementAdded (by decide)).2.2.2.2
      (emit { config := sampleOneContact, notifications := 0 } .channels .elementAdded)
      (fun r => (true, r)) rfl).2.1⟩

/-- Counterexample to C13 as stated: the parser of the radio IDs creates a
radio ID, then the parser of the contacts fails; `readYAML` returns failure
and the radio ID created from the failed document is still in the tree. -/
theorem readYAML_failure_leaves_created_objects :
    (readYAML removalSignals sampleFailingMembers
        { config := sampleConfig none, notifications := 0 } (some samplePlainDocument)).1
      = false
    ∧ (readYAML removalSignals sampleFailingMembers
        { config := sampleConfig none, notifications := 0 }
        (some samplePlainDocument)).2.config.radioIDs.ids = [sampleIdA] := by
  refine ⟨by rfl, by rfl⟩

/-- C13 (amended). `readYAML` clears the tree before it parses, and whenever it
returns failure because `parse` or `link` failed at some step, it returns at
once: the tree is left as the failed `parse`, or the failed `link` behind a
successful `parse`, left it, with every collection holding what `parse` put
in; nothing is discarded. -/
theorem readYAML_failure_state (cs : ClearSignals) (m : Members) (r : Root) (node : Node)
    (hfail : (readYAML cs m r (some node)).1 = false) :
    ((parse m (clear cs r).config node { version := "", table := [] }).ok = false
      ∧ (readYAML cs m r (some node)).2.config
          = (parse m (clear cs r).config node { version := "", table := [] }).config)
    ∨ ((parse m (clear cs r).config node { version := "", table := [] }).ok = true
      ∧ (link m (parse m (clear cs r).config node { version := "", table := [] }).config node
          (parse m (clear cs r).config node { version := "", table := [] }).ctx).ok = false
      ∧ ∀ k, collection (readYAML cs m r (some node)).2.config k
          = collection (parse m (clear cs r).config node
              { version := "", table := [] }).config k) := by
  unfold readYAML at hfail ⊢
  dsimp only at hfail ⊢
  cases hp : (parse m (clear cs r).config node { version := "", table := [] }).ok with
  | false =>
    left
    simp [hp]
  | true =>
    right
    simp only [hp, Bool.not_true, Bool.false_eq_true, if_false] at hfail ⊢
    cases hl : (link m (parse m (clear cs r).config node { version := "", table := [] }).config
        node (parse m (clear cs r).config node { version := "", table := [] }).ctx).ok with
    | true => simp [hl] at hfail
    | false =>
      simp only [hl, Bool.not_false, if_true, true_and]
      intro k
      exact link_collection m _ node _ k

/-- Witness for C13 (amended): the read of the counterexample. -/
theorem readYAML_failure_state_witness :
    (readYAML removalSignals sampleFailingMembers
        { config := sampleConfig none, notifications := 0 } (some samplePlainDocument)).1
      = false
    ∧ (readYAML removalSignals sampleFailingMembers
        { config := sampleConfig none, notifications := 0 }
        (some samplePlainDocument)).2.config
      = (parse sampleFailingMembers
          (clear removalSignals { config := sampleConfig none, notifications := 0 }).config
          samplePlainDocument { version := "", table := [] }).config :=
  ⟨by rfl,
   ((readYAML_failure_state removalSignals sampleFailingMembers
      { config := sampleConfig none, notifications := 0 } samplePlainDocument
      (by rfl)).resolve_right (by
        intro h
        exact absurd h.1 (by decide))).2⟩

/-- C16. For every channel list, `requiresRoaming()` returns `true` if and
only if at least one channel of the list is a digital channel whose roaming
zone is set; a list of analog channels never makes it `true`. -/
theorem requiresRoaming_iff (channels : List Channel) :
    (requiresRoaming channels = true
      ↔ ∃ zone aprs, Channel.digital (some zone) aprs ∈ channels)
    ∧ ((∀ ch ∈ channels, ∃ aprs, ch = Channel.analog aprs) →
        requiresRoaming channels = false) := by
  have hiff : ∀ chs : List Channel, requiresRoaming chs = true
      ↔ ∃ zone aprs, Channel.digital (some zone) aprs ∈ chs := by
    intro chs
    induction chs with
    | nil => simp [requiresRoaming]
    | cons ch rest ih =>
      cases ch with
      | analog a => simp [requiresRoaming, ih]
      | digital z a =>
        cases z with
        | none => simp [requiresRoaming, ih]
        | some zone =>
          simp only [requiresRoaming, Option.isSome_some, if_true, true_iff]
          exact ⟨zone, a, List.mem_cons_self _ _⟩
  refine ⟨hiff channels, fun hall => ?_⟩
  cases hr : requiresRoaming channels with
  | false => rfl
  | true =>
    obtain ⟨zone, aprs, hmem⟩ := (hiff channels).mp hr
    obtain ⟨a, ha⟩ := hall _ hmem
    cases ha

/-- Witness for C16: analog channels with APRS systems only. -/
theorem requiresRoaming_iff_witness :
    (∀ ch ∈ [Channel.analog (some sampleContact), Channel.analog none],
        ∃ aprs, ch = Channel.analog aprs)
    ∧ requiresRoaming [Channel.analog (some sampleContact), Channel.analog none] = false :=
  ⟨by
    intro ch hch
    simp only [List.mem_cons, List.mem_singleton, List.not_mem_nil, or_false] at hch
    rcases hch with rfl | rfl <;> exact ⟨_, rfl⟩,
   (requiresRoaming_iff [Channel.analog (some sampleContact), Channel.analog none]).2
     (by
      intro ch hch
      simp only [List.mem_cons, List.mem_singleton, List.not_mem_nil, or_false] at hch
      rcases hch with rfl | rfl <;> exact ⟨_, rfl⟩)⟩

/-- C17. For every channel list, `requiresGPS()` returns `true` if and only if
at least one channel is an analog channel with an APRS system set or a digital
channel with a positioning system set; it returns `false` for the empty
list. -/
theorem requiresGPS_iff (channels : List Channel) :
    (requiresGPS channels = true
      ↔ (∃ aprs, Channel.analog (some aprs) ∈ channels)
        ∨ (∃ zone pos, Channel.digital zone (some pos) ∈ channels))
    ∧ requiresGPS [] = false := by
  refine ⟨?_, rfl⟩
  induction channels with
  | nil => simp [requiresGPS]
  | cons ch rest ih =>
    cases ch with
    | analog a =>
      cases a with
      | none => simp [requiresGPS, ih]
      | some aprs =>
        simp only [requiresGPS, Option.isSome_some, if_true, true_iff]
        exact Or.inl ⟨aprs, List.mem_cons_self _ _⟩
    | digital z p =>
      cases p with
      | none => simp [requiresGPS, ih]
      | some pos =>
        simp only [requiresGPS, Option.isSome_some, if_true, true_iff]
        exact Or.inr ⟨z, pos, List.mem_cons_self _ _⟩

end Config

/-! ## Part 6. Properties of `D878UV::verifyConfig` and of the bank constants -/

namespace D878UV

theorem char_eq_of_toNat_eq (a b : Char) (h : a.toNat = b.toNat) : a = b :=
  Char.ext (UInt32.toNat.inj h)

theorem lessChars_irrefl (a : List Char) : lessChars a a = false := by
  induction a with
  | nil => rfl
  | cons c cs ih => simp [lessChars, ih]

theorem lessChars_asymm (a b : List Char) (h : lessChars a b = true) :
    lessChars b a = false := by
  induction a generalizing b with
  | nil =>
    cases b with
    | nil => rfl
    | cons d ds => rfl
  | cons c cs ih =>
    cases b with
    | nil => simp [lessChars] at h
    | cons d ds =>
      unfold lessChars at h ⊢
      by_cases h1 : c.toNat < d.toNat
      · have h2 : ¬ d.toNat < c.toNat := by omega
        simp [h1, h2]
      · by_cases h2 : d.toNat < c.toNat
        · simp [h1, h2] at h
        · simp only [h1, h2, if_false] at h ⊢
          exact ih ds h

theorem lessChars_total (a b : List Char) (h : a ≠ b) :
    lessChars a b = true ∨ lessChars b a = true := by
  induction a generalizing b with
  | nil =>
    cases b with
    | nil => exact absurd rfl h
    | cons d ds => exact Or.inl rfl
  | cons c cs ih =>
    cases b with
    | nil => exact Or.inr rfl
    | cons d ds =>
      unfold lessChars
      by_cases h1 : c.toNat < d.toNat
      · simp [h1]
      · by_cases h2 : d.toNat < c.toNat
        · simp [h2]
        · have hcd : c = d := char_eq_of_toNat_eq c d (by omega)
          subst hcd
          have hne : cs ≠ ds := fun e => h (by rw [e])
          simp only [h1, if_false]
          exact ih ds hne

theorem qstringLess_total (a b : String) (h : a ≠ b) :
    qstringLess a b = true ∨ qstringLess b a = true := by
  unfold qstringLess
  apply lessChars_total
  intro e
  exact h (String.ext e)

/-- C18. For every reported firmware version `v`, every base result `b` and
base issue list `L`: `verifyConfig` returns `b` and leaves `L` as it is when
`v` equals `"V100"`; otherwise it appends exactly one issue of severity
`WARNING`, the newer-firmware advisory when `"V100" < v` and the
older-firmware advisory when `"V100" > v` in the character-wise order of
strings, and returns `max(b, WARNING)`.  The result is never lower than `b`,
and it is the maximum severity of the issues when `b` was that of `L`. -/
theorem verifyConfig_version_check (WARNING : Nat) (v : String) (b : Nat)
    (L : List VerifyIssue) :
    (v = "V100" → verifyConfig WARNING v (b, L) = (b, L))
    ∧ (v ≠ "V100" → qstringLess "V100" v = true ∨ qstringLess v "V100" = true)
    ∧ (qstringLess "V100" v = true →
        qstringLess v "V100" = false
        ∧ verifyConfig WARNING v (b, L)
          = (max b WARNING,
              L ++ [{ type := WARNING, message := newerMessage v "V100" }]))
    ∧ (qstringLess v "V100" = true →
        qstringLess "V100" v = false
        ∧ verifyConfig WARNING v (b, L)
          = (max b WARNING,
              L ++ [{ type := WARNING, message := olderMessage v "V100" }]))
    ∧ b ≤ (verifyConfig WARNING v (b, L)).1
    ∧ ((∀ i ∈ L, i.type ≤ b) →
        ∀ i ∈ (verifyConfig WARNING v (b, L)).2,
          i.type ≤ (verifyConfig WARNING v (b, L)).1) := by
  have hnew : qstringLess "V100" v = true →
      verifyConfig WARNING v (b, L)
        = (max b WARNING, L ++ [{ type := WARNING, message := newerMessage v "V100" }]) := by
    intro h
    simp [verifyConfig, h]
  have hold : qstringLess v "V100" = true →
      qstringLess "V100" v = false
      ∧ verifyConfig WARNING v (b, L)
        = (max b WARNING, L ++ [{ type := WARNING, message := olderMessage v "V100" }]) := by
    intro h
    have h2 : qstringLess "V100" v = false := lessChars_asymm _ _ h
    exact ⟨h2, by simp [verifyConfig, h, h2]⟩
  have hsame : v = "V100" → verifyConfig WARNING v (b, L) = (b, L) := by
    intro h
    subst h
    rfl
  refine ⟨hsame, fun h => (qstringLess_total v "V100" h).symm,
    fun h => ⟨lessChars_asymm _ _ h, hnew h⟩, hold, ?_, ?_⟩
  · by_cases h : v = "V100"
    · rw [hsame h]
    · rcases qstringLess_total v "V100" h with h1 | h1
      · rw [(hold h1).2]
        exact Nat.le_max_left _ _
      · rw [hnew h1]
        exact Nat.le_max_left _ _
  · intro hb i hi
    by_cases h : v = "V100"
    · rw [hsame h] at hi ⊢
      exact hb i hi
    · rcases qstringLess_total v "V100" h with h1 | h1
      · rw [(hold h1).2] at hi ⊢
        rcases List.mem_append.mp hi with hi | hi
        · exact Nat.le_trans (hb i hi) (Nat.le_max_left _ _)
        · simp only [List.mem_singleton] at hi
          subst hi
          exact Nat.le_max_right _ _
      · rw [hnew h1] at hi ⊢
        rcases List.mem_append.mp hi with hi | hi
        · exact Nat.le_trans (hb i hi) (Nat.le_max_left _ _)
        · simp only [List.mem_singleton] at hi
          subst hi
          exact Nat.le_max_right _ _

/-- Witness for C18: the firmware reports `V101`, the base verification found
nothing. -/
theorem verifyConfig_version_check_witness :
    qstringLess "V100" "V101" = true
    ∧ verifyConfig 2 "V101" (0, [])
        = (2, [{ type := 2, message := newerMessage "V101" "V100" }]) :=
  ⟨by decide,
   ((verifyConfig_version_check 2 "V101" 0 []).2.2.1 (by decide)).2.trans (by decide)⟩

end D878UV

namespace OpenGD77BaseCodeplug

/-- C19, the code at the failing index. The bank has room for 8 systems, but
its declared size is that of one record: the record of index 1 occupies the
bytes `0x40` to `0x80` and lies behind the end of the bank, and the last
record ends at `0x200`, the product of the limit and the record size. -/
theorem aprs_bank_record_outside_declared_size :
    1 < APRSSettingsBankElement.Limit.systems
    ∧ APRSSettingsBankElement.systemOffset 1 = 0x40
    ∧ APRSSettingsBankElement.systemOffset 1 + APRSSettingsElement.size = 0x80
    ∧ APRSSettingsBankElement.size = 0x40
    ∧ ¬ (APRSSettingsBankElement.systemOffset 1 + APRSSettingsElement.size
          ≤ APRSSettingsBankElement.size)
    ∧ APRSSettingsBankElement.systemOffset 7 + APRSSettingsElement.size
        = APRSSettingsBankElement.Limit.systems * APRSSettingsElement.size
    ∧ APRSSettingsBankElement.Limit.systems * APRSSettingsElement.size = 0x200 := by
  decide

/-- C20. The constants of the channel, zone and DTMF contact banks agree: the
declared size of each bank is its record-area offset plus capacity times
record size (`0x1c10 = 0x10 + 128 * 0x38`, `0x20 + 68 * 0xb0`, `64 * 0x20`);
for every slot index below the capacity the record of the slot lies within
the bank and behind the bitmask region; and the bitmask region in front of
the records has at least one bit per slot (16 bytes for 128 channels, 32
bytes for 68 zones). -/
theorem bank_constants_consistent (idx : Nat) :
    (ChannelBankElement.size
        = ChannelBankElement.Offset.channels
          + ChannelBankElement.Limit.channelCount * ChannelElement.size
      ∧ ChannelBankElement.size = 0x1c10
      ∧ 0x10 + 128 * 0x38 = 0x1c10)
    ∧ (ZoneBankElement.size
        = ZoneBankElement.Offset.zones + ZoneBankElement.Limit.zoneCount * ZoneElement.size
      ∧ ZoneBankElement.size = 0x20 + 68 * 0xb0)
    ∧ (DTMFContactBankElement.size
        = DTMFContactBankElement.Offset.contacts
          + DTMFContactBankElement.Limit.contacts * DTMFContactElement.size
      ∧ DTMFContactBankElement.size = 64 * 0x20)
    ∧ (idx < ChannelBankElement.Limit.channelCount →
        ChannelBankElement.Offset.channels ≤ ChannelBankElement.channelOffset idx
        ∧ ChannelBankElement.channelOffset idx + ChannelElement.size
            ≤ ChannelBankElement.size)
    ∧ (idx < ZoneBankElement.Limit.zoneCount →
        ZoneBankElement.Offset.zones ≤ ZoneBankElement.zoneOffset idx
        ∧ ZoneBankElement.zoneOffset idx + ZoneElement.size ≤ ZoneBankElement.size)
    ∧ (idx < DTMFContactBankElement.Limit.contacts →
        DTMFContactBankElement.contactOffset idx + DTMFContactElement.size
          ≤ DTMFContactBankElement.size)
    ∧ (ChannelBankElement.Offset.channels - ChannelBankElement.Offset.bitmask = 16
      ∧ ChannelBankElement.Limit.channelCount
          ≤ 8 * (ChannelBankElement.Offset.channels - ChannelBankElement.Offset.bitmask))
    ∧ (ZoneBankElement.Offset.zones - ZoneBankElement.Offset.bitmap = 32
      ∧ ZoneBankElement.Limit.zoneCount
          ≤ 8 * (ZoneBankElement.Offset.zones - ZoneBankElement.Offset.bitmap)) := by
  simp only [ChannelBankElement.size, ChannelBankElement.Offset.channels,
    ChannelBankElement.Offset.bitmask, ChannelBankElement.Limit.channelCount,
    ChannelElement.size, ChannelBankElement.channelOffset,
    ZoneBankElement.size, ZoneBankElement.Offset.zones, ZoneBankElement.Offset.bitmap,
    ZoneBankElement.Offset.betweenZones, ZoneBankElement.Limit.zoneCount, ZoneElement.size,
    ZoneBankElement.zoneOffset,
    DTMFContactBankElement.size, DTMFContactBankElement.Offset.contacts,
    DTMFContactBankElement.Offset.betweenContacts, DTMFContactBankElement.Limit.contacts,
    DTMFContactElement.size, DTMFContactBankElement.contactOffset]
  refine ⟨⟨trivial, trivial, trivial⟩, ⟨trivial, trivial⟩, ⟨trivial, trivial⟩,
    ?_, ?_, ?_, ⟨trivial, ?_⟩, trivial, ?_⟩ <;> omega

/-- Witness for C20: the last slot of each bank. -/
theorem bank_constants_consistent_witness :
    (127 < ChannelBankElement.Limit.channelCount
      ∧ 67 < ZoneBankElement.Limit.zoneCount
      ∧ 63 < DTMFContactBankElement.Limit.contacts)
    ∧ ChannelBankElement.channelOffset 127 + ChannelElement.size = ChannelBankElement.size
    ∧ ZoneBankElement.zoneOffset 67 + ZoneElement.size ≤ ZoneBankElement.size
    ∧ DTMFContactBankElement.contactOffset 63 + DTMFContactElement.size
        ≤ DTMFContactBankElement.size :=
  ⟨by decide,
   Nat.le_antisymm ((bank_constants_consistent 127).2.2.2.1 (by decide)).2 (by decide),
   ((bank_constants_consistent 67).2.2.2.2.1 (by decide)).2,
   (bank_constants_consistent 63).2.2.2.2.2.1 (by decide)⟩

end OpenGD77BaseCodeplug

/-! ## Part 7. The band table, link order, bit flags, version order and entries -/

namespace D878UV

theorem features_default (b : Nat) (h : 0x11 < b) :
    features b = { _d878uv_features with frequencyLimits := [(136, 174), (400, 480)] } := by
  unfold features
  split <;> first | rfl | omega

/-- C21. For every band code `b`, the feature table of the constructed
`D878UV` equals the static table `_d878uv_features` in every field except
`frequencyLimits`, and `frequencyLimits` is the entry of the fixed table for
`b`: the codes `0x00`, `0x01`, `0x04` and every code above `0x11` give
136-174 and 400-480 MHz, and the range 220-225 MHz is included for the code
`0x0e` only. -/
theorem features_band_lookup (b : Nat) :
    { features b with frequencyLimits := _d878uv_features.frequencyLimits } = _d878uv_features
    ∧ ((b = 0x00 ∨ b = 0x01 ∨ b = 0x04 ∨ 0x11 < b) →
        (features b).frequencyLimits = [(136, 174), (400, 480)])
    ∧ ((220, 225) ∈ (features b).frequencyLimits ↔ b = 0x0e)
    ∧ (List.range 0x12).map (fun code => (features code).frequencyLimits)
        = [[(136, 174), (400, 480)], [(136, 174), (400, 480)], [(136, 174), (430, 440)],
           [(144, 146), (430, 440)], [(136, 174), (400, 480)], [(144, 146), (430, 440)],
           [(136, 174), (446, 447)], [(144, 148), (420, 450)], [(136, 174), (400, 470)],
           [(144, 146), (430, 432)], [(144, 148), (430, 450)], [(136, 174), (400, 520)],
           [(136, 174), (400, 490)], [(136, 174), (403, 470)],
           [(136, 174), (220, 225), (400, 520)], [(144, 148), (400, 520)],
           [(144, 147), (430, 440)], [(136, 174)]] := by
  by_cases hb : 0x11 < b
  · rw [features_default b hb]
    refine ⟨rfl, fun _ => rfl, ?_, by decide⟩
    constructor
    · intro h
      simp at h
    · intro h
      omega
  · have hle : b ≤ 0x11 := by omega
    refine ⟨?_, ?_, ?_, by decide⟩
    · interval_cases b <;> rfl
    · intro h
      rcases h with rfl | rfl | rfl | h
      · rfl
      · rfl
      · rfl
      · exact absurd h hb
    · interval_cases b <;> decide

/-- Witness for C21: the band codes `0x04` and `0xff`. -/
theorem features_band_lookup_witness :
    ((4 = 0x00 ∨ 4 = 0x01 ∨ 4 = 0x04 ∨ 0x11 < 4) ∧ (255 = 0x00 ∨ 255 = 0x01 ∨ 255 = 0x04
        ∨ 0x11 < 255))
    ∧ (features 4).frequencyLimits = [(136, 174), (400, 480)]
    ∧ (features 255).frequencyLimits = [(136, 174), (400, 480)]
    ∧ (features 255).maxChannels = 4000 :=
  ⟨by decide, (features_band_lookup 4).2.1 (by decide),
   (features_band_lookup 255).2.1 (by decide), by decide⟩

/-- C24. The version check of `verifyConfig` is character-wise and not
numeric: `V99` denotes the number 99, below the 100 of the supported `V100`,
and yet gets the newer-firmware warning; the empty version string gets the
older-firmware warning. -/
theorem verifyConfig_order_not_numeric (WARNING : Nat) (b : Nat) (L : List VerifyIssue) :
    numericVersion "V99" = some 99
    ∧ numericVersion "V100" = some 100
    ∧ verifyConfig WARNING "V99" (b, L)
        = (max b WARNING, L ++ [{ type := WARNING, message := newerMessage "V99" "V100" }])
    ∧ verifyConfig WARNING "" (b, L)
        = (max b WARNING, L ++ [{ type := WARNING, message := olderMessage "" "V100" }]) := by
  have h1 : qstringLess "V100" "V99" = true := by decide
  have h2 : qstringLess "V100" "" = false := by decide
  have h3 : qstringLess "" "V100" = true := by decide
  refine ⟨by decide, by decide, ?_, ?_⟩
  · simp [verifyConfig, h1]
  · simp [verifyConfig, h2, h3]

end D878UV

namespace Config

theorem linkStep_calls_extend (m : Members) (node : Node) (ctx : Context) (k : Key)
    (s : LinkResult) : ∃ rest, (linkStep m node ctx k s).calls = s.calls ++ rest := by
  unfold linkStep
  split
  · exact ⟨[], by simp⟩
  · exact ⟨[k], rfl⟩

theorem linkSteps_calls_extend (m : Members) (node : Node) (ctx : Context) (ks : List Key)
    (s : LinkResult) : ∃ rest, (linkSteps m node ctx ks s).calls = s.calls ++ rest := by
  induction ks generalizing s with
  | nil => exact ⟨[], by simp [linkSteps]⟩
  | cons k ks ih =>
    obtain ⟨r1, h1⟩ := linkStep_calls_extend m node ctx k s
    unfold linkSteps
    dsimp only
    split
    · obtain ⟨r2, h2⟩ := ih (linkStep m node ctx k s)
      exact ⟨r1 ++ r2, by rw [h2, h1, List.append_assoc]⟩
    · exact ⟨r1, h1⟩

/-- C22. `link` links the radio-ID list before the settings and before the
default-ID resolution: when the radio-ID linking fails, `link` returns failure
having called nothing else and with the configuration, its default radio ID
included, as it was; when the settings linking fails, `link` returns failure
having called these two only, again with the configuration as it was.  In
every run the radio-ID list is the first member linked and the settings, if
reached, the second. -/
theorem link_radioIDs_before_settings (m : Members) (cfg : Config) (node : Node)
    (ctx : Context) :
    (m.link .radioIDs (node.get "radioIDs") ctx = false →
        link m cfg node ctx = { ok := false, config := cfg, calls := [.radioIDs] })
    ∧ (m.link .radioIDs (node.get "radioIDs") ctx = true →
        m.link .settings (node.get "settings") ctx = false →
        link m cfg node ctx = { ok := false, config := cfg, calls := [.radioIDs, .settings] })
    ∧ ((link m cfg node ctx).calls = [.radioIDs]
        ∨ ∃ rest, (link m cfg node ctx).calls = .radioIDs :: .settings :: rest) := by
  refine ⟨fun hr => ?_, fun hr hs => ?_, ?_⟩
  · simp [link, hr]
  · simp [link, hr, hs]
  · by_cases hr : m.link .radioIDs (node.get "radioIDs") ctx = true
    · right
      by_cases hs : m.link .settings (node.get "settings") ctx = true
      · cases hd : linkDefaultID cfg.radioIDs node ctx with
        | none => exact ⟨[], by simp [link, hr, hs, hd]⟩
        | some l =>
          rw [link_eq_linkOver, linkOver_resolved m cfg node ctx linkKeys l hr hs hd]
          obtain ⟨rest, hrest⟩ := linkSteps_calls_extend m node ctx linkKeys
            { ok := true, config := { cfg with radioIDs := l }, calls := [.radioIDs, .settings] }
          refine ⟨rest, ?_⟩
          split
          · rw [hrest]
            rfl
          · simp only [hrest]
            rfl
      · exact ⟨[], by simp [link, hr, hs]⟩
    · left
      simp [link, hr]

/-- Witness for C22: the radio-ID linking fails; the default radio ID stays
index 1 although the document names `id1`. -/
theorem link_radioIDs_before_settings_witness :
    (sampleMembers false).link .radioIDs ((sampleDocument "id1").get "radioIDs") sampleContext
      = false
    ∧ link (sampleMembers false) (sampleConfig (some 1)) (sampleDocument "id1") sampleContext
        = { ok := false, config := sampleConfig (some 1), calls := [.radioIDs] } :=
  ⟨by rfl,
   (link_radioIDs_before_settings (sampleMembers false) (sampleConfig (some 1))
      (sampleDocument "id1") sampleContext).1 (by rfl)⟩

end Config

namespace OpenGD77BaseCodeplug

theorem getD_set_self (data : List Nat) (i x : Nat) (h : i < data.length) :
    (data.set i x).getD i 0 = x := by
  simp [List.getD_eq_getElem?_getD, List.getElem?_set, h]

theorem getD_set_other (data : List Nat) (i j x : Nat) (h : i ≠ j) :
    (data.set i x).getD j 0 = data.getD j 0 := by
  simp [List.getD_eq_getElem?_getD, List.getElem?_set, h]

theorem getD_set_outside (data : List Nat) (i x : Nat) (h : data.length ≤ i) :
    (data.set i x).getD i 0 = data.getD i 0 := by
  rw [List.set_eq_of_length_le h]

/-- Writing the bit at one coordinate leaves the bit at every other coordinate
as it was. -/
theorem getBit_setBit_other (data : List Nat) (b c : Bit) (value : Bool) (h : b ≠ c) :
    getBit (setBit data b value) c = getBit data c := by
  unfold getBit setBit
  by_cases hbyte : b.byte = c.byte
  · have hbit : b.bit ≠ c.bit := by
      intro hb
      apply h
      cases b
      cases c
      simp_all
    rw [← hbyte]
    by_cases hlen : b.byte < data.length
    · rw [getD_set_self data _ _ hlen]
      cases value
      · simp [Nat.testBit_xor, Nat.testBit_and, Nat.one_shiftLeft, Nat.testBit_two_pow, hbit]
      · simp [Nat.testBit_or, Nat.one_shiftLeft, Nat.testBit_two_pow, hbit]
    · rw [getD_set_outside data _ _ (Nat.not_lt.mp hlen)]
  · rw [getD_set_other data _ _ _ hbyte]

/-- The bit written is the bit read at the same coordinate, inside the element. -/
theorem getBit_setBit_self (data : List Nat) (b : Bit) (value : Bool)
    (h : b.byte < data.length) : getBit (setBit data b value) b = value := by
  unfold getBit setBit
  rw [getD_set_self data _ _ h]
  cases value
  · simp [Nat.testBit_xor, Nat.testBit_and, Nat.one_shiftLeft, Nat.testBit_two_pow]
  · simp [Nat.testBit_or, Nat.one_shiftLeft, Nat.testBit_two_pow]

/-- C23. The flags `simplex` and `useFixedLocation` of the channel element
have the same coordinate, bit 3 of byte `0x26`, while the other pairs of flags
of that byte are distinct: on a channel element of zero bytes, in which no
fixed location is set, `enableSimplex(true)` sets byte `0x26` to 8 and
`hasFixedPosition()` becomes true. -/
theorem enableSimplex_sets_fixed_location :
    ChannelElement.Offset.simplex = ChannelElement.Offset.useFixedLocation
    ∧ [ChannelElement.Offset.useFixedLocation, ChannelElement.Offset.disablePowerSave,
        ChannelElement.Offset.disableBeep, ChannelElement.Offset.overrideDMRID].Nodup
    ∧ ChannelElement.hasFixedPosition (List.replicate ChannelElement.size 0) = false
    ∧ (ChannelElement.enableSimplex (List.replicate ChannelElement.size 0) true).getD 0x26 0 = 8
    ∧ ChannelElement.hasFixedPosition
        (ChannelElement.enableSimplex (List.replicate ChannelElement.size 0) true) = true := by
  decide

end OpenGD77BaseCodeplug

namespace GD77CallsignDB

theorem decode_bcd_id (no : Nat) (h : no < 10 ^ 8) :
    decode_dmr_id_bcd (encode_dmr_id_bcd no) = no := by
  simp only [decode_dmr_id_bcd, encode_dmr_id_bcd, bcdByte, List.foldl]
  omega

theorem take_fromEntry (user : User) :
    (fromEntry user).take 4 = encode_dmr_id_bcd user.id := by
  unfold fromEntry
  rw [List.take_append_of_le_length (by simp [encode_dmr_id_bcd])]
  simp [encode_dmr_id_bcd]

theorem drop_fromEntry (user : User) :
    (fromEntry user).drop 4 = encode_ascii (entryName user) 8 0x00 := by
  unfold fromEntry
  have h : (encode_dmr_id_bcd user.id).length = 4 := by simp [encode_dmr_id_bcd]
  rw [← h, List.drop_left]

theorem storeBytes_inside (buf : List Nat) (pos : Nat) (bytes : List Nat)
    (h : pos + bytes.length ≤ buf.length) :
    storeBytes buf pos bytes = buf.take pos ++ bytes ++ buf.drop (pos + bytes.length) := by
  have hpos : (buf.take pos).length = pos := by
    rw [List.length_take]
    omega
  have hr : bytes.length ≤ (buf.drop pos).length := by
    rw [List.length_drop]
    omega
  have e := storeBytes_append (buf.take pos) (buf.drop pos) bytes hr
  rw [List.take_append_drop, hpos] at e
  rw [e, List.drop_drop]

/-- C25. For every user record, `fromEntry` fills the twelve bytes of the
entry with the BCD number of `id` (read back by `getNumber` as `id`, for an
id of at most eight decimal digits) followed by the name field of exactly 8
bytes: the first 8 characters of `call` when `name` is empty and of
`call + " " + name` otherwise, padded with `0x00`.  Stored at a position of a
buffer, the entry changes the twelve bytes of the entry and nothing else. -/
theorem fromEntry_number_and_name (user : User) :
    (fromEntry user).length = sizeofEntry
    ∧ (user.id < 10 ^ 8 → getNumber (fromEntry user) = user.id)
    ∧ (user.name.isEmpty = true → entryName user = user.call)
    ∧ (user.name.isEmpty = false → entryName user = user.call ++ " " ++ user.name)
    ∧ (fromEntry user).drop 4
        = ((entryName user).toList.take 8).map (fun c => c.toNat % 256)
          ++ List.replicate (8 - (entryName user).length) 0x00
    ∧ ((fromEntry user).drop 4).length = 8
    ∧ (∀ (buf : List Nat) (pos : Nat), pos + sizeofEntry ≤ buf.length →
        storeBytes buf pos (fromEntry user)
          = buf.take pos ++ fromEntry user ++ buf.drop (pos + sizeofEntry)) := by
  have hlen := length_fromEntry user
  refine ⟨hlen, fun h => ?_, fun h => ?_, fun h => ?_, ?_, ?_, fun buf pos h => ?_⟩
  · rw [getNumber, take_fromEntry, decode_bcd_id user.id h]
  · simp [entryName, h]
  · simp [entryName, h]
  · rw [drop_fromEntry]
    rfl
  · rw [List.length_drop, hlen]
  · have e := storeBytes_inside buf pos (fromEntry user) (by rw [hlen]; exact h)
    rw [hlen] at e
    exact e

/-- Witness for C25: the record (2621234, DM3MAT, Hannes) gives the name
`DM3MAT H`, stored at position 2 of a buffer of 16 bytes. -/
theorem fromEntry_number_and_name_witness :
    ((2621234 : Nat) < 10 ^ 8 ∧ ("Hannes" : String).isEmpty = false ∧ 2 + sizeofEntry ≤ 16)
    ∧ getNumber (fromEntry { id := 2621234, call := "DM3MAT", name := "Hannes" }) = 2621234
    ∧ entryName { id := 2621234, call := "DM3MAT", name := "Hannes" } = "DM3MAT Hannes"
    ∧ fromEntry { id := 2621234, call := "DM3MAT", name := "Hannes" }
        = [0x02, 0x62, 0x12, 0x34, 0x44, 0x4d, 0x33, 0x4d, 0x41, 0x54, 0x20, 0x48]
    ∧ storeBytes (List.replicate 16 0xff) 2
        (fromEntry { id := 2621234, call := "DM3MAT", name := "Hannes" })
        = [0xff, 0xff, 0x02, 0x62, 0x12, 0x34, 0x44, 0x4d, 0x33, 0x4d, 0x41, 0x54, 0x20, 0x48,
           0xff, 0xff] :=
  ⟨by decide,
   (fromEntry_number_and_name { id := 2621234, call := "DM3MAT", name := "Hannes" }).2.1
     (by decide),
   (fromEntry_number_and_name { id := 2621234, call := "DM3MAT", name := "Hannes" }).2.2.2.1
     (by decide),
   by decide,
   ((fromEntry_number_and_name
      { id := 2621234, call := "DM3MAT", name := "Hannes" }).2.2.2.2.2.2
      (List.replicate 16 0xff) 2 (by decide)).trans (by decide)⟩

theorem encode_of_zero (fill : Nat) (img : Image) (db : List User) (sel : Selection)
    (h : entryCount db.length sel = 0) : encode fill img db sel = (true, img) := by
  unfold encode
  simp [h]

/-- C26. When the effective entry count is 0, `encode` returns success and the
image as it was: no element is allocated and nothing is written.  This is so
for an empty user database (with a count limit, if any, that fits the signed
64 bit of the comparison) and for a count limit of 0; encoding into the empty
image leaves the empty image, which holds no magic header. -/
theorem encode_zero_entries (fill : Nat) (img : Image) (db : List User) (sel : Selection) :
    (entryCount db.length sel = 0 → encode fill img db sel = (true, img))
    ∧ (db = [] → (sel.hasCountLimit = true → sel.countLimit < 2 ^ 63) →
        encode fill img db sel = (true, img))
    ∧ (sel.hasCountLimit = true → sel.countLimit = 0 → encode fill img db sel = (true, img))
    ∧ (entryCount db.length sel = 0 → encode fill [] db sel = (true, [])) := by
  refine ⟨encode_of_zero fill img db sel, fun hdb hfit => ?_, fun hl h0 => ?_,
    encode_of_zero fill [] db sel⟩
  · apply encode_of_zero
    subst hdb
    unfold entryCount
    by_cases hl : sel.hasCountLimit = true
    · have := toQint64_of_lt sel.countLimit (hfit hl)
      simp [hl, this, USERDB_MAX_ENTRIES]
    · simp [hl, USERDB_MAX_ENTRIES]
  · apply encode_of_zero
    unfold entryCount
    have : toQint64 0 = 0 := toQint64_of_lt 0 (by decide)
    simp [hl, h0, this, USERDB_MAX_ENTRIES]

/-- Witness for C26: the empty database without a limit, and one user under a
count limit of 0, both into an image that holds one element already. -/
theorem encode_zero_entries_witness :
    (entryCount ([] : List User).length (Selection.mk false 0) = 0
      ∧ (Selection.mk true 0).hasCountLimit = true ∧ (Selection.mk true 0).countLimit = 0)
    ∧ encode 0xff [Element.mk 0 [1, 2]] [] (Selection.mk false 0)
        = (true, [Element.mk 0 [1, 2]])
    ∧ encode 0xff [Element.mk 0 [1, 2]] [{ id := 2621234, call := "DM3MAT", name := "Hannes" }]
        (Selection.mk true 0) = (true, [Element.mk 0 [1, 2]]) :=
  ⟨by decide,
   (encode_zero_entries 0xff [Element.mk 0 [1, 2]] [] (Selection.mk false 0)).1 (by decide),
   (encode_zero_entries 0xff [Element.mk 0 [1, 2]]
      [{ id := 2621234, call := "DM3MAT", name := "Hannes" }] (Selection.mk true 0)).2.2.1
      rfl rfl⟩

end GD77CallsignDB
